import Mathlib

/-!
Shallow embedding of the Fishbowl game core (web/src/game): the text
normalizer (`normalize.ts`), small utilities (`util.ts`), and the game
state machine reducer (`state.ts`), together with proofs of the spec
claims about them.

Conventions of the embedding:
* JS `number` fields are modelled as `Int` (all arithmetic the core
  performs on them is integral); `T | null` / optional fields as `Option`.
* JS truthiness tests on `string | null` / `number | null` are modelled
  by dedicated helpers (`optStrTruthy`, `optIntTruthy`) mirroring the
  falsiness of `""`, `0` and `null`.
* The entropy-backed collaborators (`shuffled`, `createId`, `Date.now`)
  are modelled by an explicit per-action environment `Env`; theorems that
  need them assume the shuffle returns a permutation and the generated
  ids are fresh, which is exactly what the real collaborators provide.
-/

namespace Fishbowl

/-- Characters matched by the JavaScript regex class `\s` (WhiteSpace and
LineTerminator code points), used by `trim` and the whitespace-collapsing
replace in the normalizer. -/
def jsIsWhite (c : Char) : Bool :=
  c ∈ ['\t', '\n', '\x0b', '\x0c', '\r', ' ', ' ', ' ',
    ' ', ' ', ' ', ' ', ' ', ' ', ' ',
    ' ', ' ', ' ', ' ', ' ', ' ', ' ',
    ' ', '　', '﻿']

/-- JavaScript `String.prototype.trim` on a character list. -/
def jsTrimList (l : List Char) : List Char :=
  ((l.dropWhile jsIsWhite).reverse.dropWhile jsIsWhite).reverse

/-- JavaScript `String.prototype.trim`. -/
def jsTrim (s : String) : String :=
  String.mk (jsTrimList s.toList)

/-- Membership in the regex class `[A-Za-z]` used by `countLetters`. -/
def isAsciiLetter (c : Char) : Bool :=
  ('A' ≤ c && c ≤ 'Z') || ('a' ≤ c && c ≤ 'z')

/-- Embeds `countLetters` from `util.ts`: the number of matches of
`/[A-Za-z]/g`, i.e. ASCII letters only. -/
def countLetters (s : String) : Nat :=
  (s.toList.filter isAsciiLetter).length

/-- Embeds `clampInt` from `util.ts`:
`Math.max(min, Math.min(max, Math.trunc(n)))` (`Math.trunc` is the
identity on integral values). -/
def clampInt (n min max : Int) : Int :=
  Max.max min (Min.min max n)

/-- Unicode canonical decomposition (`String.prototype.normalize('NFKD')`)
per character, restricted to the code points this development exercises:
NFKD is the identity on ASCII, and `é` (U+00E9) decomposes to `e` followed
by the combining acute accent U+0301. -/
def nfkdChar (c : Char) : List Char :=
  if c = 'é' then ['e', '́'] else [c]

/-- Unicode NFKD normalization of a character list (see `nfkdChar`). -/
def nfkdList (l : List Char) : List Char :=
  l.flatMap nfkdChar

/-- The Unicode `\p{L}` (Letter) property, restricted to the Basic Latin
and Latin-1 blocks, which cover every code point this development
exercises (the Latin-1 letters are U+00C0..U+00FF minus `×` and `÷`;
U+0301 COMBINING ACUTE ACCENT is a Mark, not a Letter). -/
def jsUnicodeLetter (c : Char) : Bool :=
  isAsciiLetter c ||
    (0xC0 ≤ c.toNat && c.toNat ≤ 0xFF && c ≠ '×' && c ≠ '÷') ||
    (0xAA = c.toNat || 0xB5 = c.toNat || 0xBA = c.toNat)

/-- The Unicode `\p{N}` (Number) property restricted to ASCII digits,
which cover every code point this development exercises. -/
def jsUnicodeDigit (c : Char) : Bool :=
  '0' ≤ c && c ≤ '9'

/-- True iff the character is NOT matched by the normalizer's strip regex
`[^\p{L}\p{N}\s]`, i.e. it is kept as-is by the punctuation strip. -/
def keepChar (c : Char) : Bool :=
  jsUnicodeLetter c || jsUnicodeDigit c || jsIsWhite c

/-- Run-replacement automaton for `.replace(/[^\p{L}\p{N}\s]+/gu, ' ')`:
the Bool flag records whether we are inside a run of stripped characters
(for which the single replacement space has already been emitted). -/
def stripPunctAux : Bool → List Char → List Char
  | _, [] => []
  | inRun, c :: rest =>
    if keepChar c then c :: stripPunctAux false rest
    else if inRun then stripPunctAux true rest
    else ' ' :: stripPunctAux true rest

/-- Embeds `.replace(/[^\p{L}\p{N}\s]+/gu, ' ')`: each maximal run of
non-letter/digit/whitespace characters is replaced by a single space. -/
def stripPunct (l : List Char) : List Char :=
  stripPunctAux false l

/-- Run-replacement automaton for `.replace(/\s+/g, ' ')` (flag as in
`stripPunctAux`). -/
def collapseWsAux : Bool → List Char → List Char
  | _, [] => []
  | inRun, c :: rest =>
    if jsIsWhite c then
      if inRun then collapseWsAux true rest
      else ' ' :: collapseWsAux true rest
    else c :: collapseWsAux false rest

/-- Embeds `.replace(/\s+/g, ' ')`: each maximal whitespace run is
replaced by a single space. -/
def collapseWs (l : List Char) : List Char :=
  collapseWsAux false l

/-- JavaScript `String.prototype.toLowerCase`, restricted to the code
points this development exercises (ASCII case mapping; `é` is already
lowercase and maps to itself). -/
def jsToLower (c : Char) : Char := c.toLower

/-- Result record of `normalizeFishbowlText` (`normalize.ts`). -/
structure NormalizeResult where
  displayText : String
  normalizedText : String
  isValid : Bool
  error : Option String
deriving DecidableEq, Repr

/-- Embeds `normalizeFishbowlText` from `normalize.ts`. -/
def normalizeFishbowlText (input : String) : NormalizeResult :=
  let displayText := jsTrim input
  if countLetters displayText < 2 then
    { displayText := displayText
      normalizedText := ""
      isValid := false
      error := some "Each item must contain at least 2 letters." }
  else
    let noPunct := stripPunct (nfkdList displayText.toList)
    let normalizedText :=
      String.mk (jsTrimList (collapseWs (noPunct.map jsToLower)))
    if normalizedText.length = 0 then
      { displayText := displayText
        normalizedText := ""
        isValid := false
        error := some "That item is not valid." }
    else
      { displayText := displayText
        normalizedText := normalizedText
        isValid := true
        error := none }

/-! ## Data model (`types.ts`) -/

/-- Team identifier (`'A' | 'B'`). -/
inductive TeamId | A | B
deriving DecidableEq, Repr

/-- Round number (`1 | 2 | 3`). -/
inductive RoundNumber | one | two | three
deriving DecidableEq, Repr

/-- Screen enumeration. -/
inductive Screen
  | resume | hostSetup | wordEntry | entryHandoff | ready
  | turnHandoff | turnStart | turnActive | timeUp | roundComplete | final
deriving DecidableEq, Repr

/-- Event type enumeration. -/
inductive EventType
  | ROUND_STARTED | TURN_STARTED | WORD_GUESSED | WORD_PASSED
  | UNDO | TIME_UP | ROUND_COMPLETED
deriving DecidableEq, Repr

structure Team where
  id : TeamId
  name : String
deriving DecidableEq, Repr

/-- The `Record<TeamId, Team>` of the two teams. -/
structure Teams where
  A : Team
  B : Team
deriving DecidableEq, Repr

structure Player where
  id : String
  name : String
  teamId : TeamId
  entryIndex : Int
deriving DecidableEq, Repr

structure FishbowlItem where
  id : String
  text : String
  normalizedText : String
  ownerPlayerId : String
deriving DecidableEq, Repr

structure TimerSettings where
  round1Seconds : Int
  round2Seconds : Int
  round3Seconds : Int
deriving DecidableEq, Repr

structure Carryover where
  seconds : Int
  teamId : TeamId
deriving DecidableEq, Repr

structure RoundPools where
  primary : List String
  deferred : List String
  currentItemId : Option String
deriving DecidableEq, Repr

structure RoundScores where
  A : Int
  B : Int
deriving DecidableEq, Repr

/-- Mapping from round number to per-round scores (`ScoresByRound`). -/
structure ScoresByRound where
  r1 : RoundScores
  r2 : RoundScores
  r3 : RoundScores
deriving DecidableEq, Repr

/-- The `Partial<Record<RoundNumber, TeamId>>` maps. -/
structure RoundTeamMap where
  r1 : Option TeamId
  r2 : Option TeamId
  r3 : Option TeamId
deriving DecidableEq, Repr

structure GameEvent where
  id : String
  ts : Int
  type : EventType
  round : Option RoundNumber
  team : Option TeamId
  wordId : Option String
  wordText : Option String
  pointsDelta : Option Int
  note : Option String
deriving DecidableEq, Repr

/-- Undo entry kind (`'WORD_GUESSED' | 'WORD_PASSED'`). -/
inductive UndoKind | WORD_GUESSED | WORD_PASSED
deriving DecidableEq, Repr

structure UndoEntry where
  kind : UndoKind
  round : RoundNumber
  team : TeamId
  pools : RoundPools
  scoresByRound : ScoresByRound
  wordId : Option String
  wordText : Option String
  pointsDelta : Option Int
deriving DecidableEq, Repr

structure GameState where
  version : Nat
  screen : Screen
  teams : Teams
  playerCount : Int
  timerSettings : TimerSettings
  entryIndex : Int
  startingTeamRound1 : Option TeamId
  players : List Player
  items : List FishbowlItem
  currentRound : Option RoundNumber
  currentTeamTurn : TeamId
  roundStartTeam : RoundTeamMap
  roundFinisherTeam : RoundTeamMap
  carryoverForNextRound : Option Carryover
  pendingCarryoverSecondsThisRound : Option Int
  pools : Option RoundPools
  scoresByRound : ScoresByRound
  turnEndEpochMs : Option Int
  turnDurationSeconds : Option Int
  timerSecondsRemaining : Option Int
  undoStack : List UndoEntry
  events : List GameEvent
  lastError : Option String
deriving DecidableEq, Repr

/-- The reducer action type (`Action` in `state.ts`). `ENTRY_SUBMIT_PLAYER`
carries exactly three item strings, as in the source tuple type. -/
inductive Action
  | HOST_SET_TEAM_NAME (teamId : TeamId) (name : String)
  | HOST_SET_PLAYER_COUNT (playerCount : Int)
  | HOST_SET_TIMER (round : RoundNumber) (seconds : Int)
  | HOST_START_WORD_ENTRY
  | ENTRY_SUBMIT_PLAYER (playerName : String) (teamId : TeamId)
      (item1 item2 item3 : String)
  | ENTRY_ACK_HANDOFF
  | READY_START_ROUND1
  | HANDOFF_ACK
  | TURN_START
  | TURN_SYNC_TIMER (nowMs : Int)
  | TURN_GUESSED
  | TURN_PASSED
  | TURN_UNDO
  | TIME_UP_ACK
  | ROUND_PROCEED
  | HOST_RESTART_GAME
  | HOST_RESTART_ROUND
deriving DecidableEq, Repr

/-- Per-action environment: the entropy-backed collaborators the reducer
consults during one action. `shuffle` stands for `shuffled` from
`shuffle.ts` (a random permutation), `now` for `Date.now()` (every
`nowEpochMs()` call within one synchronous action reads the same
millisecond value), and `freshIds i` for the i-th `createId` call made
while processing the action (crypto-random, collision-free ids). -/
structure Env where
  shuffle : List String → List String
  now : Int
  freshIds : Nat → String

/-! ## JS-value helpers -/

/-- Truthiness of a JS `string | null | undefined` value: `null`,
`undefined` and the empty string are falsy. -/
def optStrTruthy (o : Option String) : Bool :=
  match o with
  | none => false
  | some s => s ≠ ""

/-- Truthiness of a JS `number | null` value: `null` and `0` are falsy. -/
def optIntTruthy (o : Option Int) : Bool :=
  match o with
  | none => false
  | some n => n ≠ 0

/-- Integer ceiling division `Math.ceil(a / b)` for positive `b`. -/
def ceilDiv (a b : Int) : Int :=
  Int.ediv (a + b - 1) b

/-- JavaScript `array.slice(-10)`: the last (at most) ten elements. -/
def sliceLastTen (l : List α) : List α :=
  l.drop (l.length - 10)

/-- Embeds `otherTeam` from `util.ts`. -/
def otherTeam (teamId : TeamId) : TeamId :=
  match teamId with
  | .A => .B
  | .B => .A

/-- Embeds `roundName` from `util.ts`. -/
def roundName (round : RoundNumber) : String :=
  match round with
  | .one => "Describe"
  | .two => "Charades"
  | .three => "One-word clue"

/-- Numeric value of a round, for interpolated log notes and ordering. -/
def roundToNat (round : RoundNumber) : Nat :=
  match round with
  | .one => 1
  | .two => 2
  | .three => 3

/-- The round after the given one (used by `ROUND_PROCEED`, which is a
no-op past round 3 before this is consulted). -/
def nextRoundNumber (round : RoundNumber) : RoundNumber :=
  match round with
  | .one => .two
  | .two => .three
  | .three => .three

/-- Read `scoresByRound[round]`. -/
def ScoresByRound.get (s : ScoresByRound) (round : RoundNumber) : RoundScores :=
  match round with
  | .one => s.r1
  | .two => s.r2
  | .three => s.r3

/-- Write `scoresByRound[round]`. -/
def ScoresByRound.set (s : ScoresByRound) (round : RoundNumber)
    (v : RoundScores) : ScoresByRound :=
  match round with
  | .one => { s with r1 := v }
  | .two => { s with r2 := v }
  | .three => { s with r3 := v }

/-- Read `scores[team]`. -/
def RoundScores.get (s : RoundScores) (team : TeamId) : Int :=
  match team with
  | .A => s.A
  | .B => s.B

/-- Write `scores[team]`. -/
def RoundScores.set (s : RoundScores) (team : TeamId) (v : Int) : RoundScores :=
  match team with
  | .A => { s with A := v }
  | .B => { s with B := v }

/-- Read a `Partial<Record<RoundNumber, TeamId>>`. -/
def RoundTeamMap.get (m : RoundTeamMap) (round : RoundNumber) : Option TeamId :=
  match round with
  | .one => m.r1
  | .two => m.r2
  | .three => m.r3

/-- Write a `Partial<Record<RoundNumber, TeamId>>`. -/
def RoundTeamMap.set (m : RoundTeamMap) (round : RoundNumber)
    (team : TeamId) : RoundTeamMap :=
  match round with
  | .one => { m with r1 := some team }
  | .two => { m with r2 := some team }
  | .three => { m with r3 := some team }

/-- Read `state.teams[teamId]`. -/
def Teams.get (t : Teams) (teamId : TeamId) : Team :=
  match teamId with
  | .A => t.A
  | .B => t.B

/-- Write `state.teams[teamId]`. -/
def Teams.set (t : Teams) (teamId : TeamId) (v : Team) : Teams :=
  match teamId with
  | .A => { t with A := v }
  | .B => { t with B := v }

/-! ## Reducer helpers (`state.ts`) -/

/-- Embeds `emptyScores`. -/
def emptyScores : ScoresByRound :=
  { r1 := { A := 0, B := 0 }, r2 := { A := 0, B := 0 }, r3 := { A := 0, B := 0 } }

/-- Embeds `createNewGameState`. -/
def createNewGameState : GameState :=
  { version := 1
    screen := .hostSetup
    teams := { A := { id := .A, name := "Blue" }, B := { id := .B, name := "Red" } }
    playerCount := 8
    timerSettings := { round1Seconds := 30, round2Seconds := 45, round3Seconds := 20 }
    entryIndex := 0
    startingTeamRound1 := none
    players := []
    items := []
    currentRound := none
    currentTeamTurn := .A
    roundStartTeam := { r1 := none, r2 := none, r3 := none }
    roundFinisherTeam := { r1 := none, r2 := none, r3 := none }
    carryoverForNextRound := none
    pendingCarryoverSecondsThisRound := none
    pools := none
    scoresByRound := emptyScores
    turnEndEpochMs := none
    turnDurationSeconds := none
    timerSecondsRemaining := none
    undoStack := []
    events := []
    lastError := none }

/-- Embeds `canEditSetup`. -/
def canEditSetup (state : GameState) : Bool :=
  state.currentRound = none

/-- Embeds `clonePools` (structural copy; identity on immutable values). -/
def clonePools (p : RoundPools) : RoundPools :=
  { primary := p.primary, deferred := p.deferred, currentItemId := p.currentItemId }

/-- Embeds `cloneScores` (structural copy; identity on immutable values). -/
def cloneScores (s : ScoresByRound) : ScoresByRound :=
  { r1 := s.r1, r2 := s.r2, r3 := s.r3 }

/-- Embeds `addEvent`: appends the event with a fresh id (`createId('evt')`
is the k-th id drawn from the environment during this action; the caller
passes a placeholder id that is overwritten). -/
def addEvent (env : Env) (k : Nat) (state : GameState) (evt : GameEvent) : GameState :=
  { state with events := state.events ++ [{ evt with id := env.freshIds k }] }

/-- Embeds `getDefaultTurnSeconds`. -/
def getDefaultTurnSeconds (state : GameState) (round : RoundNumber) : Int :=
  match round with
  | .one => clampInt state.timerSettings.round1Seconds 5 300
  | .two => clampInt state.timerSettings.round2Seconds 5 300
  | .three => clampInt state.timerSettings.round3Seconds 5 300

/-- Embeds `ensurePoolsReady`. -/
def ensurePoolsReady (env : Env) (state : GameState) : GameState :=
  match state.currentRound with
  | none => state
  | some _ =>
    match state.pools with
    | some _ => state
    | none =>
      { state with
        pools := some
          { primary := env.shuffle (state.items.map (fun it => it.id))
            deferred := []
            currentItemId := none } }

/-- Embeds `drawIfNeeded`. -/
def drawIfNeeded (env : Env) (state : GameState) : GameState :=
  match state.currentRound, state.pools with
  | none, _ => state
  | some _, none => state
  | some _, some p =>
    if optStrTruthy p.currentItemId then state
    else
      let pd :=
        if p.primary.isEmpty && !p.deferred.isEmpty then
          (env.shuffle p.deferred, ([] : List String))
        else (p.primary, p.deferred)
      match pd with
      | ([], _) => state
      | (next :: rest, deferred) =>
        { state with
          pools := some
            { primary := rest, deferred := deferred, currentItemId := some next } }

/-- Embeds `isRoundComplete`. -/
def isRoundComplete (state : GameState) : Bool :=
  state.currentRound.isSome &&
    match state.pools with
    | none => false
    | some p =>
      !optStrTruthy p.currentItemId && p.primary.isEmpty && p.deferred.isEmpty

/-- Embeds `getItemById`. -/
def getItemById (state : GameState) (id : Option String) : Option FishbowlItem :=
  match id with
  | none => none
  | some i => if i = "" then none else state.items.find? (fun x => x.id = i)

/-- Printed name of an undo kind, for the UNDO log note. -/
def undoKindStr (k : UndoKind) : String :=
  match k with
  | .WORD_GUESSED => "WORD_GUESSED"
  | .WORD_PASSED => "WORD_PASSED"

/-- The remaining-seconds computation of `completeRound`: recomputed from
the live end-of-turn epoch when mid-turn, else the last synced remaining
value (`?? 0`). -/
def roundRemainingSeconds (env : Env) (state : GameState) : Int :=
  match state.turnEndEpochMs with
  | some e => Max.max 0 (ceilDiv (e - env.now) 1000)
  | none => state.timerSecondsRemaining.getD 0

/-- Embeds `completeRound`. `k` is the index of the `createId` call that
names the appended event within the current action. -/
def completeRound (env : Env) (k : Nat) (state : GameState) : GameState :=
  match state.currentRound with
  | none => state
  | some round =>
    let finisher := state.currentTeamTurn
    let remaining : Int := roundRemainingSeconds env state
    let nextCarryover : Option Carryover :=
      if roundToNat round < 3 ∧ remaining > 0 then
        some { seconds := remaining, teamId := finisher }
      else none
    let nextState : GameState :=
      { state with
        screen := .roundComplete
        roundFinisherTeam := state.roundFinisherTeam.set round finisher
        carryoverForNextRound := nextCarryover
        pendingCarryoverSecondsThisRound := none
        turnEndEpochMs := none
        turnDurationSeconds := none
        timerSecondsRemaining := none
        undoStack := []
        lastError := none }
    addEvent env k nextState
      { id := "", ts := env.now, type := .ROUND_COMPLETED, round := some round
        team := some finisher, wordId := none, wordText := none
        pointsDelta := none
        note := some ("Round " ++ toString (roundToNat round) ++ " complete") }

/-- Embeds `applyUndo`. -/
def applyUndo (env : Env) (state : GameState) : GameState :=
  match state.undoStack.getLast? with
  | none => { state with lastError := some "Nothing to undo." }
  | some top =>
    match state.currentRound with
    | none => { state with lastError := some "Nothing to undo." }
    | some r =>
      if top.round ≠ r then { state with lastError := some "Nothing to undo." }
      else
        let newUndoStack := state.undoStack.dropLast
        let nextState : GameState :=
          { state with
            pools := some (clonePools top.pools)
            scoresByRound := cloneScores top.scoresByRound
            undoStack := newUndoStack
            lastError := none }
        addEvent env 4 nextState
          { id := "", ts := env.now, type := .UNDO, round := state.currentRound
            team := some state.currentTeamTurn, wordId := top.wordId
            wordText := top.wordText
            pointsDelta := some
              (match top.pointsDelta with
               | some d => if d ≠ 0 then -d else 0
               | none => 0)
            note := some ("Undo " ++ undoKindStr top.kind) }

/-- The duplicate-lookup map `normalizedToExistingText` built by iterating
the stored items in order (later items overwrite earlier keys, so a get
returns the text of the last stored item with that normalized form). -/
def lookupExistingText (items : List FishbowlItem) (ntext : String) : Option String :=
  (items.reverse.find? (fun it => it.normalizedText = ntext)).map (fun it => it.text)

/-- Embeds the validation loop of `ENTRY_SUBMIT_PLAYER`: walks the
submitted raw strings with index `i`, carrying the first-seen map
`seen` for intra-submission duplicates; returns the validated
(displayText, normalizedText) pairs or the first error message. -/
def validateEntryItems (existing : List FishbowlItem) :
    List (String × Nat) → Nat → List String → Except String (List (String × String))
  | _, _, [] => .ok []
  | seen, i, raw :: rest =>
    let n := normalizeFishbowlText raw
    if n.isValid = false then
      .error ("Item " ++ toString (i + 1) ++ ": " ++ n.error.getD "")
    else
      let existingText := lookupExistingText existing n.normalizedText
      if optStrTruthy existingText then
        .error ("Item " ++ toString (i + 1) ++
          " is a duplicate of an existing entry: \"" ++ existingText.getD "" ++ "\".")
      else
        match seen.find? (fun q => q.1 = n.normalizedText) with
        | some q =>
          .error ("Item " ++ toString (i + 1) ++ " duplicates Item " ++
            toString (q.2 + 1) ++ ".")
        | none =>
          match validateEntryItems existing (seen ++ [(n.normalizedText, i)]) (i + 1) rest with
          | .error e => .error e
          | .ok tail => .ok ((n.displayText, n.normalizedText) :: tail)

/-- Embeds `newItems.map((it) => ({ id: createId('word'), ... }))`: the
k-th element draws the k-th fresh id of the action. -/
def mkItemRecords (env : Env) (playerId : String) :
    Nat → List (String × String) → List FishbowlItem
  | _, [] => []
  | k, it :: rest =>
    { id := env.freshIds k, text := it.1, normalizedText := it.2
      ownerPlayerId := playerId } :: mkItemRecords env playerId (k + 1) rest

/-- Embeds `gameReducer` from `state.ts`. -/
def gameReducer (env : Env) (state : GameState) (action : Action) : GameState :=
  match action with
  | .HOST_SET_TEAM_NAME teamId name =>
    if canEditSetup state = false then state
    else
      { state with
        teams := state.teams.set teamId { state.teams.get teamId with name := name } }
  | .HOST_SET_PLAYER_COUNT playerCount =>
    if canEditSetup state = false then state
    else { state with playerCount := clampInt playerCount 2 30 }
  | .HOST_SET_TIMER round seconds =>
    if canEditSetup state = false then state
    else
      let s := clampInt seconds 5 300
      let ts := state.timerSettings
      let ts :=
        match round with
        | .one => { ts with round1Seconds := s }
        | .two => { ts with round2Seconds := s }
        | .three => { ts with round3Seconds := s }
      { state with timerSettings := ts }
  | .HOST_START_WORD_ENTRY =>
    if canEditSetup state = false then state
    else
      { state with
        screen := .wordEntry
        entryIndex := 0
        startingTeamRound1 := none
        players := []
        items := []
        pools := none
        scoresByRound := emptyScores
        currentRound := none
        currentTeamTurn := .A
        roundStartTeam := { r1 := none, r2 := none, r3 := none }
        roundFinisherTeam := { r1 := none, r2 := none, r3 := none }
        carryoverForNextRound := none
        pendingCarryoverSecondsThisRound := none
        turnEndEpochMs := none
        turnDurationSeconds := none
        timerSecondsRemaining := none
        undoStack := []
        events := []
        lastError := none }
  | .ENTRY_SUBMIT_PLAYER playerNameRaw teamId item1 item2 item3 =>
    if state.screen ≠ .wordEntry then state
    else
      let playerName := jsTrim playerNameRaw
      if playerName = "" then
        { state with lastError := some "Please enter a player name." }
      else if state.entryIndex ≥ state.playerCount then state
      else
        match validateEntryItems state.items [] 0 [item1, item2, item3] with
        | .error e => { state with lastError := some e }
        | .ok newItems =>
          let playerId := env.freshIds 0
          let player : Player :=
            { id := playerId, name := playerName, teamId := teamId
              entryIndex := state.entryIndex }
          let items := mkItemRecords env playerId 1 newItems
          let nextEntryIndex := state.entryIndex + 1
          { state with
            players := state.players ++ [player]
            items := state.items ++ items
            startingTeamRound1 := some (state.startingTeamRound1.getD teamId)
            entryIndex := nextEntryIndex
            screen := if nextEntryIndex ≥ state.playerCount then .ready else .entryHandoff
            lastError := none }
  | .ENTRY_ACK_HANDOFF =>
    if state.screen ≠ .entryHandoff then state
    else { state with screen := .wordEntry, lastError := none }
  | .READY_START_ROUND1 =>
    if state.screen ≠ .ready then state
    else if (state.items.length : Int) ≠ state.playerCount * 3 then
      { state with lastError := some "Incorrect number of items in fishbowl." }
    else
      let startTeam := state.startingTeamRound1.getD .A
      let s1 : GameState :=
        { state with
          currentRound := some .one
          currentTeamTurn := startTeam
          roundStartTeam := state.roundStartTeam.set .one startTeam
          carryoverForNextRound := none
          pendingCarryoverSecondsThisRound := none
          pools := none
          turnEndEpochMs := none
          turnDurationSeconds := none
          timerSecondsRemaining := none
          undoStack := []
          screen := .turnHandoff
          lastError := none }
      let s2 := ensurePoolsReady env s1
      addEvent env 4 s2
        { id := "", ts := env.now, type := .ROUND_STARTED, round := some .one
          team := some startTeam, wordId := none, wordText := none
          pointsDelta := none
          note := some ("Round 1 started (" ++ roundName .one ++ ")") }
  | .HANDOFF_ACK =>
    if state.screen ≠ .turnHandoff then state
    else { state with screen := .turnStart, lastError := none }
  | .TURN_START =>
    if state.screen ≠ .turnStart then state
    else
      match state.currentRound with
      | none => state
      | some round =>
        -- Ensure we have a current item ready when turn begins.
        let s1 := drawIfNeeded env (ensurePoolsReady env state)
        -- If the round is already empty, complete it (edge case).
        if isRoundComplete s1 then completeRound env 4 s1
        else
          -- `nextState.currentRound as RoundNumber`: ensurePoolsReady and
          -- drawIfNeeded leave currentRound untouched, so this is `round`.
          let defaultSeconds := getDefaultTurnSeconds s1 round
          let durationSeconds :=
            if (s1.pendingCarryoverSecondsThisRound.getD 0) > 0 then
              s1.pendingCarryoverSecondsThisRound.getD 0
            else defaultSeconds
          let endMs := env.now + durationSeconds * 1000
          let s2 : GameState :=
            { s1 with
              screen := .turnActive
              turnDurationSeconds := some durationSeconds
              turnEndEpochMs := some endMs
              timerSecondsRemaining := some durationSeconds
              undoStack := []
              pendingCarryoverSecondsThisRound := none
              lastError := none }
          addEvent env 4 s2
            { id := "", ts := env.now, type := .TURN_STARTED, round := some round
              team := some s2.currentTeamTurn, wordId := none, wordText := none
              pointsDelta := none
              note := some ("Turn started (" ++ toString durationSeconds ++ "s)") }
  | .TURN_SYNC_TIMER nowMs =>
    if state.screen ≠ .turnActive then state
    else if optIntTruthy state.turnEndEpochMs = false then state
    else
      let e := state.turnEndEpochMs.getD 0
      let remaining := Max.max 0 (ceilDiv (e - nowMs) 1000)
      if state.timerSecondsRemaining = some remaining then state
      else if remaining > 0 then { state with timerSecondsRemaining := some remaining }
      else
        let nextPools : Option RoundPools :=
          match state.pools with
          | some p =>
            if optStrTruthy p.currentItemId then
              some
                { p with
                  primary := env.shuffle (p.primary ++ [p.currentItemId.getD ""])
                  currentItemId := none }
            else some p
          | none => none
        let s1 : GameState :=
          { state with
            screen := .timeUp
            timerSecondsRemaining := some 0
            turnEndEpochMs := none
            turnDurationSeconds := none
            undoStack := []
            lastError := none
            pools := nextPools }
        addEvent env 4 s1
          { id := "", ts := env.now, type := .TIME_UP, round := state.currentRound
            team := some state.currentTeamTurn
            wordId := state.pools.bind (fun p => p.currentItemId)
            wordText :=
              (getItemById state (state.pools.bind (fun p => p.currentItemId))).map
                (fun it => it.text)
            pointsDelta := none, note := some "Time up" }
  | .TURN_PASSED =>
    if state.screen ≠ .turnActive then state
    else
      match state.currentRound, state.pools with
      | some round, some p =>
        if optStrTruthy p.currentItemId = false then state
        else
          let c := p.currentItemId.getD ""
          let word := getItemById state p.currentItemId
          let undoEntry : UndoEntry :=
            { kind := .WORD_PASSED, round := round, team := state.currentTeamTurn
              pools := clonePools p, scoresByRound := cloneScores state.scoresByRound
              wordId := p.currentItemId, wordText := word.map (fun it => it.text)
              pointsDelta := some 0 }
          let s1 : GameState :=
            { state with
              pools := some
                { primary := p.primary, deferred := p.deferred ++ [c]
                  currentItemId := none }
              undoStack := sliceLastTen (state.undoStack ++ [undoEntry])
              lastError := none }
          let s2 := drawIfNeeded env s1
          addEvent env 4 s2
            { id := "", ts := env.now, type := .WORD_PASSED, round := some round
              team := some state.currentTeamTurn, wordId := undoEntry.wordId
              wordText := undoEntry.wordText, pointsDelta := some 0, note := none }
      | _, _ => state
  | .TURN_GUESSED =>
    if state.screen ≠ .turnActive then state
    else
      match state.currentRound, state.pools with
      | some round, some p =>
        if optStrTruthy p.currentItemId = false then state
        else
          let wordId := p.currentItemId
          let word := getItemById state wordId
          let undoEntry : UndoEntry :=
            { kind := .WORD_GUESSED, round := round, team := state.currentTeamTurn
              pools := clonePools p, scoresByRound := cloneScores state.scoresByRound
              wordId := wordId, wordText := word.map (fun it => it.text)
              pointsDelta := some 1 }
          let sc := cloneScores state.scoresByRound
          let rs := sc.get round
          let sc := sc.set round (rs.set state.currentTeamTurn (rs.get state.currentTeamTurn + 1))
          let s1 : GameState :=
            { state with
              scoresByRound := sc
              pools := some
                { primary := p.primary, deferred := p.deferred, currentItemId := none }
              undoStack := sliceLastTen (state.undoStack ++ [undoEntry])
              lastError := none }
          let s2 := drawIfNeeded env s1
          let s3 :=
            addEvent env 4 s2
              { id := "", ts := env.now, type := .WORD_GUESSED, round := some round
                team := some state.currentTeamTurn, wordId := wordId
                wordText := word.map (fun it => it.text), pointsDelta := some 1
                note := none }
          -- If there are no remaining items after drawing attempt, round
          -- completes immediately.
          if isRoundComplete s3 then completeRound env 5 s3 else s3
      | _, _ => state
  | .TURN_UNDO =>
    if state.screen ≠ .turnActive then state
    else applyUndo env state
  | .TIME_UP_ACK =>
    if state.screen ≠ .timeUp then state
    else
      { state with
        screen := .turnHandoff
        currentTeamTurn := otherTeam state.currentTeamTurn
        lastError := none }
  | .ROUND_PROCEED =>
    if state.screen ≠ .roundComplete then state
    else
      match state.currentRound with
      | none => state
      | some round =>
        if round = .three then { state with screen := .final, lastError := none }
        else
          let nextRound := nextRoundNumber round
          let starter := (state.roundFinisherTeam.get round).getD state.currentTeamTurn
          let pendingCarry : Option Int :=
            match state.carryoverForNextRound with
            | some c => if c.teamId = starter ∧ c.seconds > 0 then some c.seconds else none
            | none => none
          let s1 : GameState :=
            { state with
              currentRound := some nextRound
              currentTeamTurn := starter
              roundStartTeam := state.roundStartTeam.set nextRound starter
              carryoverForNextRound := none
              pendingCarryoverSecondsThisRound := pendingCarry
              pools := none
              turnEndEpochMs := none
              turnDurationSeconds := none
              timerSecondsRemaining := none
              undoStack := []
              screen := .turnHandoff
              lastError := none }
          let s2 := ensurePoolsReady env s1
          addEvent env 4 s2
            { id := "", ts := env.now, type := .ROUND_STARTED
              round := some nextRound, team := some starter, wordId := none
              wordText := none, pointsDelta := none
              note := some ("Round " ++ toString (roundToNat nextRound) ++
                " started (" ++ roundName nextRound ++ ")") }
  | .HOST_RESTART_ROUND =>
    -- Only when not actively timing
    if state.screen = .turnActive then state
    else
      match state.currentRound with
      | none => state
      | some round =>
        let starter := (state.roundStartTeam.get round).getD state.currentTeamTurn
        let sc := (cloneScores state.scoresByRound).set round { A := 0, B := 0 }
        let s1 : GameState :=
          { state with
            scoresByRound := sc
            currentTeamTurn := starter
            carryoverForNextRound := none
            pendingCarryoverSecondsThisRound := none
            pools := none
            turnEndEpochMs := none
            turnDurationSeconds := none
            timerSecondsRemaining := none
            undoStack := []
            screen := .turnHandoff
            lastError := none }
        ensurePoolsReady env s1
  | .HOST_RESTART_GAME => createNewGameState

/-! ## Environment assumptions and reachability -/

/-- The random shuffle returns a permutation of its input (contract of
`shuffled` in `shuffle.ts`: Fisher–Yates, never mutating, same multiset). -/
def ShuffleOk (env : Env) : Prop :=
  ∀ l : List String, (env.shuffle l).Perm l

/-- Contract of the entropy-backed collaborators for one action applied in
state `s`: the shuffle permutes, and the (at most six) ids drawn by
`createId` during the action are pairwise distinct, non-empty and distinct
from every stored item id (crypto-random UUIDs do not collide). -/
def GoodEnv (env : Env) (s : GameState) : Prop :=
  ShuffleOk env ∧
  (∀ i, i < 6 → ∀ j, j < 6 → i ≠ j → env.freshIds i ≠ env.freshIds j) ∧
  (∀ i, i < 6 → env.freshIds i ∉ s.items.map (fun it => it.id)) ∧
  (∀ i, i < 6 → env.freshIds i ≠ "")

/-- States reachable from a fresh game by any sequence of actions, each
processed with collaborators honouring their contracts. -/
inductive Reachable : GameState → Prop
  | init : Reachable createNewGameState
  | step {s : GameState} (env : Env) (a : Action) (hs : Reachable s)
      (henv : GoodEnv env s) : Reachable (gameReducer env s a)

/-- The ids of all stored items. -/
def itemIds (s : GameState) : List String :=
  s.items.map (fun it => it.id)

/-- All item ids currently held by the pools: primary, then deferred, then
the presented item (if any). -/
def poolList (p : RoundPools) : List String :=
  p.primary ++ p.deferred ++ p.currentItemId.toList

/-- Well-formedness of a pools value relative to the stored item ids: no
id occurs twice across primary/deferred/current, and every id held is a
stored item id. -/
def PoolsOk (ids : List String) (p : RoundPools) : Prop :=
  (poolList p).Nodup ∧ ∀ x ∈ poolList p, x ∈ ids

/-- The inductive state invariant: stored item ids are distinct and
non-empty, the live pools are well-formed, and so is every pools snapshot
on the undo stack. -/
def Inv (s : GameState) : Prop :=
  (itemIds s).Nodup ∧
  "" ∉ itemIds s ∧
  (∀ p, s.pools = some p → PoolsOk (itemIds s) p) ∧
  (∀ e ∈ s.undoStack, PoolsOk (itemIds s) e.pools)

/-! ## Projection lemmas for the reducer helpers -/

theorem addEvent_pools (env : Env) (k : Nat) (s : GameState) (e : GameEvent) :
    (addEvent env k s e).pools = s.pools := rfl

theorem addEvent_items (env : Env) (k : Nat) (s : GameState) (e : GameEvent) :
    (addEvent env k s e).items = s.items := rfl

theorem addEvent_undoStack (env : Env) (k : Nat) (s : GameState) (e : GameEvent) :
    (addEvent env k s e).undoStack = s.undoStack := rfl

theorem addEvent_scoresByRound (env : Env) (k : Nat) (s : GameState) (e : GameEvent) :
    (addEvent env k s e).scoresByRound = s.scoresByRound := rfl

theorem addEvent_currentRound (env : Env) (k : Nat) (s : GameState) (e : GameEvent) :
    (addEvent env k s e).currentRound = s.currentRound := rfl

theorem addEvent_events (env : Env) (k : Nat) (s : GameState) (e : GameEvent) :
    (addEvent env k s e).events = s.events ++ [{ e with id := env.freshIds k }] := rfl

theorem ensurePoolsReady_items (env : Env) (s : GameState) :
    (ensurePoolsReady env s).items = s.items := by
  unfold ensurePoolsReady
  repeat' split
  all_goals rfl

theorem ensurePoolsReady_currentRound (env : Env) (s : GameState) :
    (ensurePoolsReady env s).currentRound = s.currentRound := by
  unfold ensurePoolsReady
  repeat' split
  all_goals rfl

theorem ensurePoolsReady_undoStack (env : Env) (s : GameState) :
    (ensurePoolsReady env s).undoStack = s.undoStack := by
  unfold ensurePoolsReady
  repeat' split
  all_goals rfl

theorem ensurePoolsReady_scoresByRound (env : Env) (s : GameState) :
    (ensurePoolsReady env s).scoresByRound = s.scoresByRound := by
  unfold ensurePoolsReady
  repeat' split
  all_goals rfl

theorem ensurePoolsReady_pending (env : Env) (s : GameState) :
    (ensurePoolsReady env s).pendingCarryoverSecondsThisRound =
      s.pendingCarryoverSecondsThisRound := by
  unfold ensurePoolsReady
  repeat' split
  all_goals rfl

theorem drawIfNeeded_items (env : Env) (s : GameState) :
    (drawIfNeeded env s).items = s.items := by
  unfold drawIfNeeded
  repeat' split
  all_goals (try rfl)
  all_goals (dsimp only []; split <;> rfl)

theorem drawIfNeeded_currentRound (env : Env) (s : GameState) :
    (drawIfNeeded env s).currentRound = s.currentRound := by
  unfold drawIfNeeded
  repeat' split
  all_goals (try rfl)
  all_goals (dsimp only []; split <;> rfl)

theorem drawIfNeeded_undoStack (env : Env) (s : GameState) :
    (drawIfNeeded env s).undoStack = s.undoStack := by
  unfold drawIfNeeded
  repeat' split
  all_goals (try rfl)
  all_goals (dsimp only []; split <;> rfl)

theorem drawIfNeeded_scoresByRound (env : Env) (s : GameState) :
    (drawIfNeeded env s).scoresByRound = s.scoresByRound := by
  unfold drawIfNeeded
  repeat' split
  all_goals (try rfl)
  all_goals (dsimp only []; split <;> rfl)

theorem drawIfNeeded_pending (env : Env) (s : GameState) :
    (drawIfNeeded env s).pendingCarryoverSecondsThisRound =
      s.pendingCarryoverSecondsThisRound := by
  unfold drawIfNeeded
  repeat' split
  all_goals (try rfl)
  all_goals (dsimp only []; split <;> rfl)

theorem drawIfNeeded_screen (env : Env) (s : GameState) :
    (drawIfNeeded env s).screen = s.screen := by
  unfold drawIfNeeded
  repeat' split
  all_goals (try rfl)
  all_goals (dsimp only []; split <;> rfl)

theorem ensurePoolsReady_screen (env : Env) (s : GameState) :
    (ensurePoolsReady env s).screen = s.screen := by
  unfold ensurePoolsReady
  repeat' split
  all_goals rfl

theorem ensurePoolsReady_timerSettings (env : Env) (s : GameState) :
    (ensurePoolsReady env s).timerSettings = s.timerSettings := by
  unfold ensurePoolsReady
  repeat' split
  all_goals rfl

theorem drawIfNeeded_timerSettings (env : Env) (s : GameState) :
    (drawIfNeeded env s).timerSettings = s.timerSettings := by
  unfold drawIfNeeded
  repeat' split
  all_goals (try rfl)
  all_goals (dsimp only []; split <;> rfl)

theorem ensurePoolsReady_carryover (env : Env) (s : GameState) :
    (ensurePoolsReady env s).carryoverForNextRound = s.carryoverForNextRound := by
  unfold ensurePoolsReady
  repeat' split
  all_goals rfl

theorem ensurePoolsReady_currentTeamTurn (env : Env) (s : GameState) :
    (ensurePoolsReady env s).currentTeamTurn = s.currentTeamTurn := by
  unfold ensurePoolsReady
  repeat' split
  all_goals rfl

theorem addEvent_pending (env : Env) (k : Nat) (s : GameState) (e : GameEvent) :
    (addEvent env k s e).pendingCarryoverSecondsThisRound =
      s.pendingCarryoverSecondsThisRound := rfl

theorem applyUndo_pending (env : Env) (s : GameState) :
    (applyUndo env s).pendingCarryoverSecondsThisRound =
      s.pendingCarryoverSecondsThisRound := by
  unfold applyUndo
  repeat' split
  all_goals rfl

theorem completeRound_pending_cases (env : Env) (k : Nat) (s : GameState) :
    (completeRound env k s).pendingCarryoverSecondsThisRound =
        s.pendingCarryoverSecondsThisRound ∨
      (completeRound env k s).pendingCarryoverSecondsThisRound = none := by
  unfold completeRound
  split
  · left; rfl
  · right; rfl

theorem addEvent_turnDuration (env : Env) (k : Nat) (s : GameState) (e : GameEvent) :
    (addEvent env k s e).turnDurationSeconds = s.turnDurationSeconds := rfl

/-- Completing a round right after logging an event over a draw leaves the
pending carryover either untouched or cleared. -/
theorem completeRound_addEvent_draw_pending (env : Env) (k k2 : Nat)
    (s : GameState) (e : GameEvent) :
    (completeRound env k (addEvent env k2 (drawIfNeeded env s) e)).pendingCarryoverSecondsThisRound =
        s.pendingCarryoverSecondsThisRound ∨
      (completeRound env k (addEvent env k2 (drawIfNeeded env s) e)).pendingCarryoverSecondsThisRound =
        none := by
  rcases completeRound_pending_cases env k (addEvent env k2 (drawIfNeeded env s) e) with h | h
  · left; rw [h, addEvent_pending, drawIfNeeded_pending]
  · right; exact h

/-- Completing a round right after ensure/draw leaves the pending
carryover either untouched or cleared. -/
theorem completeRound_ensure_draw_pending (env : Env) (k : Nat) (s : GameState) :
    (completeRound env k (drawIfNeeded env (ensurePoolsReady env s))).pendingCarryoverSecondsThisRound =
        s.pendingCarryoverSecondsThisRound ∨
      (completeRound env k (drawIfNeeded env (ensurePoolsReady env s))).pendingCarryoverSecondsThisRound =
        none := by
  rcases completeRound_pending_cases env k (drawIfNeeded env (ensurePoolsReady env s)) with h | h
  · left; rw [h, drawIfNeeded_pending, ensurePoolsReady_pending]
  · right; exact h

/-- `getDefaultTurnSeconds` only reads the timer settings. -/
theorem getDefaultTurnSeconds_congr (s t : GameState) (r : RoundNumber)
    (h : s.timerSettings = t.timerSettings) :
    getDefaultTurnSeconds s r = getDefaultTurnSeconds t r := by
  cases r <;> simp [getDefaultTurnSeconds, h]

theorem completeRound_pools (env : Env) (k : Nat) (s : GameState) :
    (completeRound env k s).pools = s.pools := by
  unfold completeRound
  split
  · rfl
  · rfl

theorem completeRound_items (env : Env) (k : Nat) (s : GameState) :
    (completeRound env k s).items = s.items := by
  unfold completeRound
  split
  · rfl
  · rfl

theorem completeRound_undoStack (env : Env) (k : Nat) (s : GameState)
    (r : RoundNumber) (h : s.currentRound = some r) :
    (completeRound env k s).undoStack = [] := by
  unfold completeRound
  split
  · simp_all
  · rfl

theorem completeRound_scoresByRound (env : Env) (k : Nat) (s : GameState) :
    (completeRound env k s).scoresByRound = s.scoresByRound := by
  unfold completeRound
  split
  · rfl
  · rfl

theorem completeRound_pending (env : Env) (k : Nat) (s : GameState)
    (r : RoundNumber) (h : s.currentRound = some r) :
    (completeRound env k s).pendingCarryoverSecondsThisRound = none := by
  unfold completeRound
  split
  · simp_all
  · rfl

/-! ## Claim C10: reset baseline -/

/-- C10: HOST_RESTART_GAME applied to any state, and the initial state of a
fresh session, both equal the same fixed baseline: screen hostSetup, teams
named "Blue" (A) and "Red" (B), playerCount 8, timer defaults 30/45/20
seconds for rounds 1/2/3, empty players, items, events and undo stack,
null currentRound and pools, currentTeamTurn A, and all scores zero. -/
theorem restart_baseline (env : Env) (s : GameState) :
    gameReducer env s .HOST_RESTART_GAME = createNewGameState ∧
    createNewGameState.screen = .hostSetup ∧
    createNewGameState.teams =
      { A := { id := .A, name := "Blue" }, B := { id := .B, name := "Red" } } ∧
    createNewGameState.playerCount = 8 ∧
    createNewGameState.timerSettings =
      { round1Seconds := 30, round2Seconds := 45, round3Seconds := 20 } ∧
    createNewGameState.players = [] ∧
    createNewGameState.items = [] ∧
    createNewGameState.events = [] ∧
    createNewGameState.undoStack = [] ∧
    createNewGameState.currentRound = none ∧
    createNewGameState.pools = none ∧
    createNewGameState.currentTeamTurn = .A ∧
    createNewGameState.scoresByRound =
      { r1 := { A := 0, B := 0 }, r2 := { A := 0, B := 0 }, r3 := { A := 0, B := 0 } } :=
  ⟨rfl, rfl, rfl, rfl, rfl, rfl, rfl, rfl, rfl, rfl, rfl, rfl, rfl⟩

/-! ## Claim C7: precondition mismatches are silent no-ops -/

/-- The screen/phase precondition of each action, read off the reducer's
guards: setup actions require `currentRound` null, gameplay actions
require their screen, HOST_RESTART_ROUND is blocked while a turn is
actively timing, HOST_RESTART_GAME is unconditional. -/
def actionAllowed (s : GameState) : Action → Bool
  | .HOST_SET_TEAM_NAME _ _ => s.currentRound = none
  | .HOST_SET_PLAYER_COUNT _ => s.currentRound = none
  | .HOST_SET_TIMER _ _ => s.currentRound = none
  | .HOST_START_WORD_ENTRY => s.currentRound = none
  | .ENTRY_SUBMIT_PLAYER _ _ _ _ _ => s.screen = .wordEntry
  | .ENTRY_ACK_HANDOFF => s.screen = .entryHandoff
  | .READY_START_ROUND1 => s.screen = .ready
  | .HANDOFF_ACK => s.screen = .turnHandoff
  | .TURN_START => s.screen = .turnStart
  | .TURN_SYNC_TIMER _ => s.screen = .turnActive
  | .TURN_GUESSED => s.screen = .turnActive
  | .TURN_PASSED => s.screen = .turnActive
  | .TURN_UNDO => s.screen = .turnActive
  | .TIME_UP_ACK => s.screen = .timeUp
  | .ROUND_PROCEED => s.screen = .roundComplete
  | .HOST_RESTART_GAME => true
  | .HOST_RESTART_ROUND => s.screen ≠ .turnActive

/-- C7: for every action and every state that does not satisfy the
action's screen/phase precondition, the reducer returns the input state
unchanged; in particular it never sets lastError for such a mismatch. -/
theorem precondition_silent_noop (env : Env) (s : GameState) (a : Action)
    (h : actionAllowed s a = false) :
    gameReducer env s a = s ∧ (gameReducer env s a).lastError = s.lastError := by
  have hmain : gameReducer env s a = s := by
    cases a <;> simp [actionAllowed] at h <;> simp [gameReducer, canEditSetup, h]
  exact ⟨hmain, by rw [hmain]⟩

/-- Witness for C7 at a concrete mismatched input: TURN_GUESSED issued
from the fresh hostSetup screen is ignored. -/
theorem precondition_silent_noop_witness :
    actionAllowed createNewGameState .TURN_GUESSED = false ∧
    gameReducer { shuffle := fun l => l, now := 0, freshIds := fun _ => "x" }
      createNewGameState .TURN_GUESSED = createNewGameState :=
  ⟨by decide,
   (precondition_silent_noop
      { shuffle := fun l => l, now := 0, freshIds := fun _ => "x" }
      createNewGameState .TURN_GUESSED (by decide)).1⟩

/-! ## Claim C6: time-up transition -/

/-- Branch equation: a TURN_SYNC_TIMER whose recomputed remaining is 0 (and
differs from the stored remaining) takes the time-up branch. -/
theorem sync_timer_timeUp_eq (env : Env) (s : GameState) (nowMs e : Int)
    (hscreen : s.screen = .turnActive)
    (hend : s.turnEndEpochMs = some e) (hne : e ≠ 0)
    (hrem : Max.max 0 (ceilDiv (e - nowMs) 1000) = 0)
    (hprev : s.timerSecondsRemaining ≠ some 0) :
    gameReducer env s (.TURN_SYNC_TIMER nowMs) =
      addEvent env 4
        { s with
          screen := .timeUp
          timerSecondsRemaining := some 0
          turnEndEpochMs := none
          turnDurationSeconds := none
          undoStack := []
          lastError := none
          pools :=
            match s.pools with
            | some p =>
              if optStrTruthy p.currentItemId then
                some
                  { p with
                    primary := env.shuffle (p.primary ++ [p.currentItemId.getD ""])
                    currentItemId := none }
              else some p
            | none => none }
        { id := "", ts := env.now, type := .TIME_UP, round := s.currentRound
          team := some s.currentTeamTurn
          wordId := s.pools.bind (fun p => p.currentItemId)
          wordText :=
            (getItemById s (s.pools.bind (fun p => p.currentItemId))).map
              (fun it => it.text)
          pointsDelta := none, note := some "Time up" } := by
  have htruthy : optIntTruthy (some e) = true := by
    simp [optIntTruthy, hne]
  have hx : ceilDiv (e - nowMs) 1000 ≤ 0 := sup_eq_left.mp hrem
  have hnlt : ¬(0 < ceilDiv (e - nowMs) 1000) := not_lt.mpr hx
  simp only [gameReducer, hend, hscreen, Option.getD_some]
  simp [htruthy, hrem, hprev, hnlt]

/-- C6: for every turnActive state with turnEndEpochMs set, a
TURN_SYNC_TIMER whose recomputed remaining
`max 0 (ceil((turnEndEpochMs - nowMs)/1000))` reaches 0 moves the screen to
timeUp, clears the undo stack, appends a TIME_UP event, leaves
scoresByRound unchanged; a presented item is returned to the primary pool
by a fresh shuffle-in (deferred unchanged, nothing discarded or scored),
and if nothing was presented the pools are unchanged. -/
theorem time_up_transition (env : Env) (s : GameState) (nowMs e : Int)
    (hsh : ShuffleOk env)
    (hscreen : s.screen = .turnActive)
    (hend : s.turnEndEpochMs = some e) (hne : e ≠ 0)
    (hrem : Max.max 0 (ceilDiv (e - nowMs) 1000) = 0)
    (hprev : s.timerSecondsRemaining ≠ some 0) :
    (gameReducer env s (.TURN_SYNC_TIMER nowMs)).screen = .timeUp ∧
    (gameReducer env s (.TURN_SYNC_TIMER nowMs)).undoStack = [] ∧
    (∃ ev : GameEvent,
      (gameReducer env s (.TURN_SYNC_TIMER nowMs)).events = s.events ++ [ev] ∧
      ev.type = .TIME_UP) ∧
    (gameReducer env s (.TURN_SYNC_TIMER nowMs)).scoresByRound = s.scoresByRound ∧
    (∀ p x, s.pools = some p → p.currentItemId = some x → x ≠ "" →
      ∃ q, (gameReducer env s (.TURN_SYNC_TIMER nowMs)).pools = some q ∧
        q.deferred = p.deferred ∧ q.currentItemId = none ∧
        q.primary.Perm (p.primary ++ [x])) ∧
    (∀ p, s.pools = some p → p.currentItemId = none →
      (gameReducer env s (.TURN_SYNC_TIMER nowMs)).pools = some p) ∧
    (s.pools = none → (gameReducer env s (.TURN_SYNC_TIMER nowMs)).pools = none) := by
  rw [sync_timer_timeUp_eq env s nowMs e hscreen hend hne hrem hprev]
  refine ⟨rfl, rfl, ⟨_, rfl, rfl⟩, rfl, ?_, ?_, ?_⟩
  · intro p x hp hx hxe
    refine ⟨(⟨env.shuffle (p.primary ++ [x]), p.deferred, none⟩ : RoundPools),
      ?_, rfl, rfl, hsh (p.primary ++ [x])⟩
    rw [addEvent_pools]
    simp only [hp]
    rw [if_pos (by simp [optStrTruthy, hx, hxe])]
    simp [hx]
  · intro p hp hx
    rw [addEvent_pools]
    simp only [hp]
    rw [if_neg]
    simp [optStrTruthy, hx]
  · intro hp
    rw [addEvent_pools]
    simp only [hp]

/-- Witness for C6: concrete turnActive state at the moment the timer
expires with item "w1" presented; the item reappears in primary. -/
theorem time_up_transition_witness :
    (gameReducer { shuffle := fun l => l, now := 5000, freshIds := fun _ => "e" }
      { createNewGameState with
        screen := .turnActive
        currentRound := some .one
        turnEndEpochMs := some 5000
        timerSecondsRemaining := some 5
        turnDurationSeconds := some 30
        pools := some { primary := ["w2"], deferred := ["w3"], currentItemId := some "w1" } }
      (.TURN_SYNC_TIMER 5000)).screen = .timeUp ∧
    (∃ q, (gameReducer { shuffle := fun l => l, now := 5000, freshIds := fun _ => "e" }
      { createNewGameState with
        screen := .turnActive
        currentRound := some .one
        turnEndEpochMs := some 5000
        timerSecondsRemaining := some 5
        turnDurationSeconds := some 30
        pools := some { primary := ["w2"], deferred := ["w3"], currentItemId := some "w1" } }
      (.TURN_SYNC_TIMER 5000)).pools = some q ∧
      q.deferred = ["w3"] ∧ q.currentItemId = none ∧
      q.primary.Perm (["w2"] ++ ["w1"])) :=
  ⟨(time_up_transition _ _ 5000 5000 (fun l => List.Perm.refl l) rfl rfl
      (by decide) (by decide) (by decide)).1,
   (time_up_transition _ _ 5000 5000 (fun l => List.Perm.refl l) rfl rfl
      (by decide) (by decide) (by decide)).2.2.2.2.1
      { primary := ["w2"], deferred := ["w3"], currentItemId := some "w1" }
      "w1" rfl rfl (by decide)⟩

/-! ## Claim C5: carryover scoping -/

/-- C5: (1) when a round completes with remaining time r > 0 and round < 3,
carryover {seconds := r, teamId := finisher} is recorded, else cleared;
(2) ROUND_PROCEED starts the next round with the recorded finisher,
transfers the carryover seconds into pendingCarryoverSecondsThisRound
exactly when the carryover's team equals that starter and its seconds are
positive, and discards the carryover record; (3) an accepted TURN_START
uses the pending seconds as the turn duration when positive, else the
round's default duration, and always clears the pending field; (4) no
action other than ROUND_PROCEED ever populates the pending field. -/
theorem carryover_scoping :
    (∀ (env : Env) (k : Nat) (s : GameState) (r : RoundNumber),
      s.currentRound = some r →
      (roundToNat r < 3 ∧ roundRemainingSeconds env s > 0 →
        (completeRound env k s).carryoverForNextRound =
          some { seconds := roundRemainingSeconds env s, teamId := s.currentTeamTurn }) ∧
      (¬(roundToNat r < 3 ∧ roundRemainingSeconds env s > 0) →
        (completeRound env k s).carryoverForNextRound = none)) ∧
    (∀ (env : Env) (s : GameState) (r : RoundNumber),
      s.screen = .roundComplete → s.currentRound = some r → r ≠ .three →
      (gameReducer env s .ROUND_PROCEED).carryoverForNextRound = none ∧
      (gameReducer env s .ROUND_PROCEED).currentRound = some (nextRoundNumber r) ∧
      (gameReducer env s .ROUND_PROCEED).currentTeamTurn =
        (s.roundFinisherTeam.get r).getD s.currentTeamTurn ∧
      (gameReducer env s .ROUND_PROCEED).pendingCarryoverSecondsThisRound =
        (match s.carryoverForNextRound with
         | some c =>
           if c.teamId = (s.roundFinisherTeam.get r).getD s.currentTeamTurn ∧
               c.seconds > 0 then
             some c.seconds
           else none
         | none => none)) ∧
    (∀ (env : Env) (s : GameState) (r : RoundNumber),
      s.screen = .turnStart → s.currentRound = some r →
      (gameReducer env s .TURN_START).pendingCarryoverSecondsThisRound = none ∧
      (isRoundComplete (drawIfNeeded env (ensurePoolsReady env s)) = false →
        (gameReducer env s .TURN_START).turnDurationSeconds =
          some (if s.pendingCarryoverSecondsThisRound.getD 0 > 0 then
              s.pendingCarryoverSecondsThisRound.getD 0
            else getDefaultTurnSeconds s r))) ∧
    (∀ (env : Env) (s : GameState) (a : Action), a ≠ .ROUND_PROCEED →
      (gameReducer env s a).pendingCarryoverSecondsThisRound =
          s.pendingCarryoverSecondsThisRound ∨
        (gameReducer env s a).pendingCarryoverSecondsThisRound = none) := by
  refine ⟨?_, ?_, ?_, ?_⟩
  · intro env k s r hr
    constructor
    · intro hpos
      simp [completeRound, hr, addEvent, hpos]
    · intro hneg
      simp [completeRound, hr, addEvent, hneg]
  · intro env s r hscreen hr hr3
    have hne : ¬(s.screen ≠ Screen.roundComplete) := by simp [hscreen]
    simp only [gameReducer, hscreen, hr, ite_not]
    simp only [if_neg hr3]
    refine ⟨?_, ?_, ?_, ?_⟩
    · simp [addEvent, ensurePoolsReady_carryover]
    · simp [addEvent, ensurePoolsReady_currentRound]
    · simp [addEvent, ensurePoolsReady_currentTeamTurn]
    · simp [addEvent, ensurePoolsReady_pending]
  · intro env s r hscreen hr
    have hcr1 : (drawIfNeeded env (ensurePoolsReady env s)).currentRound = some r := by
      rw [drawIfNeeded_currentRound, ensurePoolsReady_currentRound, hr]
    constructor
    · simp only [gameReducer, hscreen, hr]
      rw [if_neg (by simp : ¬(Screen.turnStart ≠ Screen.turnStart))]
      split
      · exact completeRound_pending env 4 _ r hcr1
      · rw [addEvent_pending]
    · intro hnc
      simp only [gameReducer, hscreen, hr]
      rw [if_neg (by simp : ¬(Screen.turnStart ≠ Screen.turnStart))]
      rw [if_neg (by simp [hnc])]
      rw [addEvent_turnDuration]
      rw [drawIfNeeded_pending, ensurePoolsReady_pending,
        getDefaultTurnSeconds_congr (drawIfNeeded env (ensurePoolsReady env s)) s r
          (by rw [drawIfNeeded_timerSettings, ensurePoolsReady_timerSettings])]
  · intro env s a ha
    cases a
    all_goals (try (exact absurd rfl ha))
    all_goals simp only [gameReducer]
    all_goals (repeat' split)
    all_goals (try (left; rfl))
    all_goals (try (right; rfl))
    all_goals (try (left; rw [addEvent_pending, drawIfNeeded_pending]))
    all_goals (try (right; rw [ensurePoolsReady_pending]))
    all_goals (try (left; exact applyUndo_pending env s))
    all_goals (try (exact completeRound_ensure_draw_pending env 4 s))
    all_goals exact completeRound_addEvent_draw_pending env 5 4 _ _

/-- Witness for C5 at concrete inputs: a round-1 completion at 12
remaining seconds records carryover for the finishing team B; the
following ROUND_PROCEED transfers 12 seconds to the pending field since
the starter is the recorded finisher B; an accepted TURN_START with 12
pending seconds uses duration 12 and clears the pending field; and a
TURN_GUESSED on the fresh state does not populate the pending field. -/
theorem carryover_scoping_witness :
    (completeRound { shuffle := fun l => l, now := 1000, freshIds := fun _ => "e" } 4
      { createNewGameState with
        currentRound := some .one, currentTeamTurn := .B,
        turnEndEpochMs := some 13000 }).carryoverForNextRound =
      some { seconds := 12, teamId := .B } ∧
    ((gameReducer { shuffle := fun l => l, now := 1000, freshIds := fun _ => "e" }
      { createNewGameState with
        screen := .roundComplete, currentRound := some .one, currentTeamTurn := .A,
        roundFinisherTeam := { r1 := some .B, r2 := none, r3 := none },
        carryoverForNextRound := some { seconds := 12, teamId := .B } }
      .ROUND_PROCEED).pendingCarryoverSecondsThisRound = some 12 ∧
     (gameReducer { shuffle := fun l => l, now := 1000, freshIds := fun _ => "e" }
      { createNewGameState with
        screen := .roundComplete, currentRound := some .one, currentTeamTurn := .A,
        roundFinisherTeam := { r1 := some .B, r2 := none, r3 := none },
        carryoverForNextRound := some { seconds := 12, teamId := .B } }
      .ROUND_PROCEED).carryoverForNextRound = none) ∧
    ((gameReducer { shuffle := fun l => l, now := 1000, freshIds := fun _ => "e" }
      { createNewGameState with
        screen := .turnStart, currentRound := some .two,
        pendingCarryoverSecondsThisRound := some 12,
        pools := some { primary := ["w1"], deferred := [], currentItemId := none } }
      .TURN_START).turnDurationSeconds = some 12 ∧
     (gameReducer { shuffle := fun l => l, now := 1000, freshIds := fun _ => "e" }
      { createNewGameState with
        screen := .turnStart, currentRound := some .two,
        pendingCarryoverSecondsThisRound := some 12,
        pools := some { primary := ["w1"], deferred := [], currentItemId := none } }
      .TURN_START).pendingCarryoverSecondsThisRound = none) ∧
    ((gameReducer { shuffle := fun l => l, now := 1000, freshIds := fun _ => "e" }
      createNewGameState .TURN_GUESSED).pendingCarryoverSecondsThisRound =
        createNewGameState.pendingCarryoverSecondsThisRound ∨
     (gameReducer { shuffle := fun l => l, now := 1000, freshIds := fun _ => "e" }
      createNewGameState .TURN_GUESSED).pendingCarryoverSecondsThisRound = none) := by
  refine ⟨?_, ⟨?_, ?_⟩, ⟨?_, ?_⟩, ?_⟩
  · exact (carryover_scoping.1 _ 4 _ .one rfl).1 ⟨by decide, by decide⟩
  · exact (carryover_scoping.2.1 _ _ .one rfl rfl (by decide)).2.2.2
  · exact (carryover_scoping.2.1 _ _ .one rfl rfl (by decide)).1
  · exact (carryover_scoping.2.2.1 _ _ .two rfl rfl).2 (by decide)
  · exact (carryover_scoping.2.2.1 _ _ .two rfl rfl).1
  · exact carryover_scoping.2.2.2 _ _ .TURN_GUESSED (by decide)

/-! ## Claim C3: undo exactness -/

theorem addEvent_screen (env : Env) (k : Nat) (s : GameState) (e : GameEvent) :
    (addEvent env k s e).screen = s.screen := rfl

theorem isRoundComplete_addEvent (env : Env) (k : Nat) (s : GameState) (e : GameEvent) :
    isRoundComplete (addEvent env k s e) = isRoundComplete s := rfl

/-- `array.slice(-10)` of a push keeps the pushed element last. -/
theorem sliceLastTen_concat (l : List α) (e : α) :
    sliceLastTen (l ++ [e]) = l.drop (l.length + 1 - 10) ++ [e] := by
  unfold sliceLastTen
  rw [List.length_append, List.length_singleton]
  exact List.drop_append_of_le_length (by omega)

theorem sliceLastTen_concat_getLast (l : List α) (e : α) :
    (sliceLastTen (l ++ [e])).getLast? = some e := by
  rw [sliceLastTen_concat]
  exact List.getLast?_concat _

/-- The undo entry recorded by TURN_GUESSED. -/
def guessedEntry (s : GameState) (r : RoundNumber) (p : RoundPools) : UndoEntry :=
  { kind := .WORD_GUESSED, round := r, team := s.currentTeamTurn
    pools := clonePools p, scoresByRound := cloneScores s.scoresByRound
    wordId := p.currentItemId
    wordText := (getItemById s p.currentItemId).map (fun it => it.text)
    pointsDelta := some 1 }

/-- The state assembled by TURN_GUESSED before the follow-up draw: score
incremented, presented item dropped, undo entry pushed. -/
def guessedMid (s : GameState) (r : RoundNumber) (p : RoundPools) : GameState :=
  { s with
    currentRound := some r
    scoresByRound :=
      (cloneScores s.scoresByRound).set r
        (((cloneScores s.scoresByRound).get r).set s.currentTeamTurn
          (((cloneScores s.scoresByRound).get r).get s.currentTeamTurn + 1))
    pools := some { primary := p.primary, deferred := p.deferred, currentItemId := none }
    undoStack := sliceLastTen (s.undoStack ++ [guessedEntry s r p])
    lastError := none }

/-- The WORD_GUESSED log event. -/
def guessedEvent (env : Env) (s : GameState) (r : RoundNumber) (p : RoundPools) : GameEvent :=
  { id := "", ts := env.now, type := .WORD_GUESSED, round := some r
    team := some s.currentTeamTurn, wordId := p.currentItemId
    wordText := (getItemById s p.currentItemId).map (fun it => it.text)
    pointsDelta := some 1, note := none }

/-- Branch equation for an accepted, non-round-completing TURN_GUESSED. -/
theorem turn_guessed_eq (env : Env) (s : GameState) (r : RoundNumber)
    (p : RoundPools) (c : String)
    (hscreen : s.screen = .turnActive) (hr : s.currentRound = some r)
    (hp : s.pools = some p) (hc : p.currentItemId = some c) (hce : c ≠ "")
    (hnc : isRoundComplete (drawIfNeeded env (guessedMid s r p)) = false) :
    gameReducer env s .TURN_GUESSED =
      addEvent env 4 (drawIfNeeded env (guessedMid s r p)) (guessedEvent env s r p) := by
  have htruthy : optStrTruthy p.currentItemId = true := by
    rw [hc]; simp [optStrTruthy, hce]
  simp only [gameReducer]
  rw [if_neg (show ¬(s.screen ≠ Screen.turnActive) by rw [hscreen]; simp)]
  simp only [hr, hp, htruthy, Bool.true_eq_false, if_false]
  rw [if_neg (by
    rw [isRoundComplete_addEvent]
    simp only [guessedMid, guessedEntry] at hnc
    simp [hnc])]
  rfl

/-- `applyUndo` with a matching top entry restores the snapshot. -/
theorem applyUndo_restore (env : Env) (s : GameState) (entry : UndoEntry)
    (r : RoundNumber) (hstack : s.undoStack.getLast? = some entry)
    (hcr : s.currentRound = some r) (hround : entry.round = r) :
    (applyUndo env s).pools = some (clonePools entry.pools) ∧
    (applyUndo env s).scoresByRound = cloneScores entry.scoresByRound := by
  unfold applyUndo
  rw [hstack, hcr]
  simp only [hround, ne_eq, not_true_eq_false, if_false, ite_false]
  exact ⟨rfl, rfl⟩

/-- If the pools still hold a further item (in primary or deferred) and no
held id is the empty string, the draw following a guess cannot complete
the round. -/
theorem isRoundComplete_draw_false (env : Env) (s : GameState) (r : RoundNumber)
    (pri dfr : List String)
    (hsh : ShuffleOk env)
    (hcr : s.currentRound = some r)
    (hp : s.pools = some { primary := pri, deferred := dfr, currentItemId := none })
    (hne : pri ≠ [] ∨ dfr ≠ [])
    (hne1 : "" ∉ pri) (hne2 : "" ∉ dfr) :
    isRoundComplete (drawIfNeeded env s) = false := by
  unfold drawIfNeeded
  rw [hcr, hp]
  simp only [optStrTruthy, ite_false]
  by_cases href : pri.isEmpty && !dfr.isEmpty
  · simp only [href, if_true]
    have hdfr : dfr ≠ [] := by
      rcases Bool.and_eq_true _ _ |>.mp href with ⟨-, h2⟩
      simpa using h2
    cases hsd : env.shuffle dfr with
    | nil =>
      simp [isRoundComplete, hcr, hp, optStrTruthy, hdfr]
    | cons next rest =>
      have hmem : next ∈ dfr := (hsh dfr).mem_iff.mp (by rw [hsd]; exact List.mem_cons_self _ _)
      have hnext : next ≠ "" := fun h => hne2 (h ▸ hmem)
      simp [isRoundComplete, hcr, optStrTruthy, hnext]
  · simp only [href, if_false]
    cases hpri : pri with
    | nil =>
      have : dfr = [] := by
        rw [hpri] at href
        simpa using href
      rcases hne with h | h
      · exact absurd hpri h
      · exact absurd this h
    | cons next rest =>
      have hnext : next ≠ "" := fun h => hne1 (h ▸ hpri ▸ List.mem_cons_self _ _)
      simp [isRoundComplete, hcr, optStrTruthy, hnext]

/-- Counterexample to C3 as stated: when the guessed item is the last one,
the guess synchronously completes the round, the screen leaves turnActive,
and the following TURN_UNDO is a silent no-op: neither the pools nor the
score increment are restored. -/
theorem undo_exactness_cex :
    ¬((gameReducer { shuffle := fun l => l, now := 1000, freshIds := fun _ => "e" }
          (gameReducer { shuffle := fun l => l, now := 1000, freshIds := fun _ => "e" }
            { createNewGameState with
              screen := .turnActive
              currentRound := some .one
              items := [{ id := "w1", text := "Cat", normalizedText := "cat", ownerPlayerId := "p1" }]
              pools := some { primary := [], deferred := [], currentItemId := some "w1" }
              turnEndEpochMs := some 30000
              turnDurationSeconds := some 30
              timerSecondsRemaining := some 30 }
            .TURN_GUESSED)
          .TURN_UNDO).pools =
        ({ createNewGameState with
          screen := .turnActive
          currentRound := some .one
          items := [{ id := "w1", text := "Cat", normalizedText := "cat", ownerPlayerId := "p1" }]
          pools := some { primary := [], deferred := [], currentItemId := some "w1" }
          turnEndEpochMs := some 30000
          turnDurationSeconds := some 30
          timerSecondsRemaining := some 30 } : GameState).pools ∧
      (gameReducer { shuffle := fun l => l, now := 1000, freshIds := fun _ => "e" }
          (gameReducer { shuffle := fun l => l, now := 1000, freshIds := fun _ => "e" }
            { createNewGameState with
              screen := .turnActive
              currentRound := some .one
              items := [{ id := "w1", text := "Cat", normalizedText := "cat", ownerPlayerId := "p1" }]
              pools := some { primary := [], deferred := [], currentItemId := some "w1" }
              turnEndEpochMs := some 30000
              turnDurationSeconds := some 30
              timerSecondsRemaining := some 30 }
            .TURN_GUESSED)
          .TURN_UNDO).scoresByRound =
        ({ createNewGameState with
          screen := .turnActive
          currentRound := some .one
          items := [{ id := "w1", text := "Cat", normalizedText := "cat", ownerPlayerId := "p1" }]
          pools := some { primary := [], deferred := [], currentItemId := some "w1" }
          turnEndEpochMs := some 30000
          turnDurationSeconds := some 30
          timerSecondsRemaining := some 30 } : GameState).scoresByRound) := by
  decide

/-- C3 (amended): on screen turnActive with an active round, a presented
item, and at least one further item left in primary or deferred (so the
guess does not synchronously complete the round; pool ids non-empty
strings, shuffle a permutation), applying TURN_GUESSED and then TURN_UNDO
yields a state whose pools and scoresByRound are identical to those before
the guess. -/
theorem undo_exactness (env env2 : Env) (s : GameState) (r : RoundNumber)
    (p : RoundPools) (c : String)
    (hsh : ShuffleOk env)
    (hscreen : s.screen = .turnActive) (hr : s.currentRound = some r)
    (hp : s.pools = some p) (hc : p.currentItemId = some c) (hce : c ≠ "")
    (hrem : p.primary ≠ [] ∨ p.deferred ≠ [])
    (hne1 : "" ∉ p.primary) (hne2 : "" ∉ p.deferred) :
    (gameReducer env2 (gameReducer env s .TURN_GUESSED) .TURN_UNDO).pools = s.pools ∧
    (gameReducer env2 (gameReducer env s .TURN_GUESSED) .TURN_UNDO).scoresByRound =
      s.scoresByRound := by
  have hnc : isRoundComplete (drawIfNeeded env (guessedMid s r p)) = false :=
    isRoundComplete_draw_false env (guessedMid s r p) r p.primary p.deferred hsh
      rfl rfl hrem hne1 hne2
  rw [turn_guessed_eq env s r p c hscreen hr hp hc hce hnc]
  set s1 := addEvent env 4 (drawIfNeeded env (guessedMid s r p)) (guessedEvent env s r p) with hs1
  have hscr1 : s1.screen = Screen.turnActive := by
    rw [hs1, addEvent_screen, drawIfNeeded_screen]
    exact hscreen
  have hstack : s1.undoStack.getLast? = some (guessedEntry s r p) := by
    rw [hs1, addEvent_undoStack, drawIfNeeded_undoStack]
    exact sliceLastTen_concat_getLast s.undoStack (guessedEntry s r p)
  have hcr1 : s1.currentRound = some r := by
    rw [hs1, addEvent_currentRound, drawIfNeeded_currentRound]
    rfl
  have hundo : gameReducer env2 s1 .TURN_UNDO = applyUndo env2 s1 := by
    simp [gameReducer, hscr1]
  rw [hundo]
  have hres := applyUndo_restore env2 s1 (guessedEntry s r p) r hstack hcr1 rfl
  refine ⟨?_, ?_⟩
  · rw [hres.1, hp]
    rfl
  · rw [hres.2]
    rfl

/-- Witness for the amended C3: guessing "w1" out of a two-item round and
undoing restores the exact pools and scores. -/
theorem undo_exactness_witness :
    (gameReducer { shuffle := fun l => l, now := 1000, freshIds := fun _ => "e" }
        (gameReducer { shuffle := fun l => l, now := 1000, freshIds := fun _ => "e" }
          { createNewGameState with
            screen := .turnActive
            currentRound := some .one
            pools := some { primary := ["w2"], deferred := [], currentItemId := some "w1" } }
          .TURN_GUESSED)
        .TURN_UNDO).pools =
      some { primary := ["w2"], deferred := [], currentItemId := some "w1" } ∧
    (gameReducer { shuffle := fun l => l, now := 1000, freshIds := fun _ => "e" }
        (gameReducer { shuffle := fun l => l, now := 1000, freshIds := fun _ => "e" }
          { createNewGameState with
            screen := .turnActive
            currentRound := some .one
            pools := some { primary := ["w2"], deferred := [], currentItemId := some "w1" } }
          .TURN_GUESSED)
        .TURN_UNDO).scoresByRound = createNewGameState.scoresByRound :=
  undo_exactness
    { shuffle := fun l => l, now := 1000, freshIds := fun _ => "e" }
    { shuffle := fun l => l, now := 1000, freshIds := fun _ => "e" }
    { createNewGameState with
      screen := .turnActive
      currentRound := some .one
      pools := some { primary := ["w2"], deferred := [], currentItemId := some "w1" } }
    .one { primary := ["w2"], deferred := [], currentItemId := some "w1" } "w1"
    (fun l => List.Perm.refl l) rfl rfl rfl rfl (by decide)
    (Or.inl (by decide)) (by decide) (by decide)

/-! ## Claim C4: duplicate normalization of "Spider-Man" vs "Spiderman" -/

/-- Environment for actions that create no entities. -/
def plainEnv : Env :=
  { shuffle := fun l => l, now := 0, freshIds := fun _ => "x" }

/-- Environment for the first word-entry submission. -/
def spiderEnv1 : Env :=
  { shuffle := fun l => l, now := 0
    freshIds := fun i => ["p1", "w1", "w2", "w3", "e1", "e2"].getD i "x" }

/-- Environment for the second word-entry submission. -/
def spiderEnv2 : Env :=
  { shuffle := fun l => l, now := 0
    freshIds := fun i => ["p2", "w4", "w5", "w6", "e3", "e4"].getD i "x" }

/-- State after player P has submitted "Spider-Man", "alpha", "beta". -/
def spiderS1 : GameState :=
  gameReducer spiderEnv1
    (gameReducer plainEnv
      (gameReducer plainEnv createNewGameState (.HOST_SET_PLAYER_COUNT 2))
      .HOST_START_WORD_ENTRY)
    (.ENTRY_SUBMIT_PLAYER "P" .A "Spider-Man" "alpha" "beta")

/-- State after player Q has then submitted "Spiderman", "gamma", "delta". -/
def spiderS2 : GameState :=
  gameReducer spiderEnv2
    (gameReducer plainEnv spiderS1 .ENTRY_ACK_HANDOFF)
    (.ENTRY_SUBMIT_PLAYER "Q" .B "Spiderman" "gamma" "delta")

/-- C4 (divergence of the code from the claim and from the in-repo product
spec §5.2): the normalizer maps "Spider-Man" to "spider man" — the regex
strips punctuation runs to a SPACE — while "Spiderman" maps to
"spiderman"; the two normalized forms differ, so after "Spider-Man" is
stored a later ENTRY_SUBMIT_PLAYER containing "Spiderman" is ACCEPTED
(no lastError, entry advances to ready) instead of being rejected as a
duplicate. -/
theorem duplicate_normalization_bug :
    (normalizeFishbowlText "Spider-Man").normalizedText = "spider man" ∧
    (normalizeFishbowlText "Spiderman").normalizedText = "spiderman" ∧
    (normalizeFishbowlText "Spider-Man").normalizedText ≠
      (normalizeFishbowlText "Spiderman").normalizedText ∧
    spiderS1.items.map (fun it => (it.text, it.normalizedText)) =
      [("Spider-Man", "spider man"), ("alpha", "alpha"), ("beta", "beta")] ∧
    spiderS1.lastError = none ∧
    spiderS2.lastError = none ∧
    spiderS2.screen = .ready ∧
    spiderS2.items.length = 6 := by
  decide

/-! ## Claim C8: normalizer letter-count rejection -/

/-- Modelled from the spec: "the count of Unicode letters in
`displayText`". Counts characters with the Unicode Letter property, via
`jsUnicodeLetter` (faithful on the Basic Latin and Latin-1 code points
this development exercises). -/
def unicodeLetterCount (s : String) : Nat :=
  (s.toList.filter jsUnicodeLetter).length

/-- Counterexample to C8 as stated: the trimmed input "éé" contains two
Unicode letters, yet the code rejects it with the too-few-letters error,
because `countLetters` counts only the ASCII range `[A-Za-z]`. -/
theorem normalizer_letter_count_cex :
    unicodeLetterCount (jsTrim "éé") = 2 ∧
    (normalizeFishbowlText "éé").isValid = false ∧
    (normalizeFishbowlText "éé").error =
      some "Each item must contain at least 2 letters." := by
  decide

/-- C8 (amended): for every input string, normalizeFishbowlText returns
isValid = false with the "too few letters" error exactly when the trimmed
input contains fewer than 2 ASCII letters (`[A-Za-z]`, the class
`countLetters` matches); every trimmed input containing at least 2 ASCII
letters passes this rejection check. -/
theorem normalizer_letter_count (input : String) :
    ((normalizeFishbowlText input).isValid = false ∧
      (normalizeFishbowlText input).error =
        some "Each item must contain at least 2 letters.") ↔
    countLetters (jsTrim input) < 2 := by
  by_cases h : countLetters (jsTrim input) < 2
  · simp only [normalizeFishbowlText, h, if_true]
    simp
  · simp only [normalizeFishbowlText, h, if_false]
    split
    · simp only [h, iff_false]
      intro hcontr
      exact absurd hcontr.2 (by simp)
    · simp [h]

/-! ## Claim C9: undo-stack bound and clearing -/

theorem length_sliceLastTen (l : List α) : (sliceLastTen l).length ≤ 10 := by
  unfold sliceLastTen
  rw [List.length_drop]
  omega

theorem completeRound_undoStack_cases (env : Env) (k : Nat) (s : GameState) :
    (completeRound env k s).undoStack = s.undoStack ∨
      (completeRound env k s).undoStack = [] := by
  unfold completeRound
  split
  · left; rfl
  · right; rfl

theorem completeRound_undoStack_le (env : Env) (k : Nat) (s : GameState)
    (h10 : s.undoStack.length ≤ 10) :
    (completeRound env k s).undoStack.length ≤ 10 := by
  rcases completeRound_undoStack_cases env k s with hc | hc
  · rw [hc]; exact h10
  · rw [hc]; decide

theorem applyUndo_undoStack_le (env : Env) (s : GameState)
    (h : s.undoStack.length ≤ 10) : (applyUndo env s).undoStack.length ≤ 10 := by
  unfold applyUndo
  repeat' split
  all_goals (try exact h)
  all_goals
    (dsimp only []
     rw [addEvent_undoStack]
     simp only [List.length_dropLast]
     omega)

/-- One reducer step keeps the undo stack within the cap of 10. -/
theorem undoStack_step_le (env : Env) (s : GameState) (a : Action)
    (h : s.undoStack.length ≤ 10) : (gameReducer env s a).undoStack.length ≤ 10 := by
  cases a
  all_goals simp only [gameReducer]
  all_goals (repeat' split)
  all_goals
    first
      | exact h
      | exact (show ([] : List UndoEntry).length ≤ 10 by decide)
      | (rw [addEvent_undoStack, drawIfNeeded_undoStack]
         exact length_sliceLastTen _)
      | (rw [ensurePoolsReady_undoStack]
         exact (show ([] : List UndoEntry).length ≤ 10 by decide))
      | exact applyUndo_undoStack_le env s h
      | (apply completeRound_undoStack_le
         rw [drawIfNeeded_undoStack, ensurePoolsReady_undoStack]; exact h)
      | (apply completeRound_undoStack_le
         rw [addEvent_undoStack, drawIfNeeded_undoStack]
         exact length_sliceLastTen _)

/-- The undo entry recorded by TURN_PASSED. -/
def passedEntry (s : GameState) (r : RoundNumber) (p : RoundPools) : UndoEntry :=
  { kind := .WORD_PASSED, round := r, team := s.currentTeamTurn
    pools := clonePools p, scoresByRound := cloneScores s.scoresByRound
    wordId := p.currentItemId
    wordText := (getItemById s p.currentItemId).map (fun it => it.text)
    pointsDelta := some 0 }

/-- C9: in every reachable state the undo stack holds at most 10 entries;
an accepted TURN_PASSED, and an accepted TURN_GUESSED that does not
complete the round, push one entry through `slice(-10)` (discarding the
oldest beyond 10); and the stack is empty after an accepted TURN_START,
after a time-up TURN_SYNC_TIMER, after round completion, and after an
accepted HOST_RESTART_ROUND or HOST_RESTART_GAME. -/
theorem undo_stack_bound :
    (∀ s : GameState, Reachable s → s.undoStack.length ≤ 10) ∧
    (∀ (env : Env) (s : GameState) (r : RoundNumber) (p : RoundPools) (c : String),
      s.screen = .turnActive → s.currentRound = some r → s.pools = some p →
      p.currentItemId = some c → c ≠ "" →
      ∃ e : UndoEntry, e.kind = .WORD_PASSED ∧
        (gameReducer env s .TURN_PASSED).undoStack =
          sliceLastTen (s.undoStack ++ [e])) ∧
    (∀ (env : Env) (s : GameState) (r : RoundNumber) (p : RoundPools) (c : String),
      s.screen = .turnActive → s.currentRound = some r → s.pools = some p →
      p.currentItemId = some c → c ≠ "" →
      isRoundComplete (drawIfNeeded env (guessedMid s r p)) = false →
      ∃ e : UndoEntry, e.kind = .WORD_GUESSED ∧
        (gameReducer env s .TURN_GUESSED).undoStack =
          sliceLastTen (s.undoStack ++ [e])) ∧
    (∀ (env : Env) (s : GameState) (r : RoundNumber),
      s.screen = .turnStart → s.currentRound = some r →
      (gameReducer env s .TURN_START).undoStack = []) ∧
    (∀ (env : Env) (s : GameState) (nowMs e : Int),
      s.screen = .turnActive → s.turnEndEpochMs = some e → e ≠ 0 →
      Max.max 0 (ceilDiv (e - nowMs) 1000) = 0 → s.timerSecondsRemaining ≠ some 0 →
      (gameReducer env s (.TURN_SYNC_TIMER nowMs)).undoStack = []) ∧
    (∀ (env : Env) (k : Nat) (s : GameState) (r : RoundNumber),
      s.currentRound = some r → (completeRound env k s).undoStack = []) ∧
    (∀ (env : Env) (s : GameState) (r : RoundNumber),
      s.screen ≠ .turnActive → s.currentRound = some r →
      (gameReducer env s .HOST_RESTART_ROUND).undoStack = []) ∧
    (∀ (env : Env) (s : GameState),
      (gameReducer env s .HOST_RESTART_GAME).undoStack = []) := by
  refine ⟨?_, ?_, ?_, ?_, ?_, ?_, ?_, ?_⟩
  · intro s hs
    induction hs with
    | init => decide
    | step env a hs henv ih => exact undoStack_step_le env _ a ih
  · intro env s r p c hscreen hr hp hc hce
    have htruthy : optStrTruthy p.currentItemId = true := by
      rw [hc]; simp [optStrTruthy, hce]
    refine ⟨passedEntry s r p, rfl, ?_⟩
    simp only [gameReducer]
    rw [if_neg (show ¬(s.screen ≠ Screen.turnActive) by rw [hscreen]; simp)]
    simp only [hr, hp, htruthy, Bool.true_eq_false, if_false]
    rw [addEvent_undoStack, drawIfNeeded_undoStack]
    rfl
  · intro env s r p c hscreen hr hp hc hce hnc
    refine ⟨guessedEntry s r p, rfl, ?_⟩
    rw [turn_guessed_eq env s r p c hscreen hr hp hc hce hnc]
    rw [addEvent_undoStack, drawIfNeeded_undoStack]
    rfl
  · intro env s r hscreen hr
    simp only [gameReducer, hr]
    rw [if_neg (show ¬(s.screen ≠ Screen.turnStart) by rw [hscreen]; simp)]
    split
    · exact completeRound_undoStack env 4 _ r
        (by rw [drawIfNeeded_currentRound, ensurePoolsReady_currentRound, hr])
    · rw [addEvent_undoStack]
  · intro env s nowMs e hscreen hend hne hrem hprev
    rw [sync_timer_timeUp_eq env s nowMs e hscreen hend hne hrem hprev]
    rfl
  · intro env k s r hr
    exact completeRound_undoStack env k s r hr
  · intro env s r hscreen hr
    simp only [gameReducer, hr]
    rw [if_neg hscreen]
    rw [ensurePoolsReady_undoStack]
  · intro env s
    rfl

/-- Witness for C9: the fresh state satisfies the bound; a concrete
accepted TURN_PASSED pushes through `slice(-10)`; a concrete accepted
TURN_START and HOST_RESTART_GAME leave an empty stack. -/
theorem undo_stack_bound_witness :
    createNewGameState.undoStack.length ≤ 10 ∧
    (∃ e : UndoEntry, e.kind = .WORD_PASSED ∧
      (gameReducer plainEnv
        { createNewGameState with
          screen := .turnActive
          currentRound := some .one
          pools := some { primary := ["w2"], deferred := [], currentItemId := some "w1" } }
        .TURN_PASSED).undoStack =
      sliceLastTen
        (({ createNewGameState with
            screen := .turnActive
            currentRound := some .one
            pools := some { primary := ["w2"], deferred := [], currentItemId := some "w1" } } : GameState).undoStack ++ [e])) ∧
    (gameReducer plainEnv
      { createNewGameState with
        screen := .turnStart
        currentRound := some .one
        pools := some { primary := ["w1"], deferred := [], currentItemId := none } }
      .TURN_START).undoStack = [] ∧
    (gameReducer plainEnv createNewGameState .HOST_RESTART_GAME).undoStack = [] :=
  ⟨undo_stack_bound.1 createNewGameState Reachable.init,
   undo_stack_bound.2.1 plainEnv _ .one
     { primary := ["w2"], deferred := [], currentItemId := some "w1" } "w1"
     rfl rfl rfl rfl (by decide),
   undo_stack_bound.2.2.2.1 plainEnv _ .one rfl rfl,
   undo_stack_bound.2.2.2.2.2.2.2 plainEnv createNewGameState⟩

/-! ## Claim C1: pool conservation — invariant machinery -/

theorem poolsOk_mono {ids ids2 : List String} (h : ∀ x ∈ ids, x ∈ ids2)
    {p : RoundPools} (hp : PoolsOk ids p) : PoolsOk ids2 p :=
  ⟨hp.1, fun x hx => h x (hp.2 x hx)⟩

theorem poolsOk_of_perm {ids : List String} {p q : RoundPools}
    (hperm : (poolList q).Perm (poolList p)) (hp : PoolsOk ids p) : PoolsOk ids q :=
  ⟨hperm.symm.nodup hp.1, fun x hx => hp.2 x (hperm.mem_iff.mp hx)⟩

theorem poolsOk_of_sublist {ids : List String} {p q : RoundPools}
    (hsub : (poolList q).Sublist (poolList p)) (hp : PoolsOk ids p) : PoolsOk ids q :=
  ⟨hsub.nodup hp.1, fun x hx => hp.2 x (hsub.subset hx)⟩

theorem mem_sliceLastTen {l : List α} {x : α} (hx : x ∈ sliceLastTen l) : x ∈ l :=
  List.mem_of_mem_drop hx

/-- Under the invariant, the id of a presented item is never the empty
string (so its JS truthiness test means presence). -/
theorem inv_cur_ne_empty {s : GameState} {p : RoundPools} {c : String}
    (hInv : Inv s) (hp : s.pools = some p) (hc : p.currentItemId = some c) :
    c ≠ "" := by
  intro he
  have hmem : c ∈ poolList p := by
    simp [poolList, hc]
  have := (hInv.2.2.1 p hp).2 c hmem
  exact hInv.2.1 (he ▸ this)

/-- Under the invariant, an item sitting in the deferred pool is not the
presented item. -/
theorem cur_not_in_deferred {s : GameState} {p : RoundPools} {x : String}
    (hInv : Inv s) (hp : s.pools = some p) (hx : x ∈ p.deferred) :
    p.currentItemId ≠ some x := by
  intro hc
  have hnd := (hInv.2.2.1 p hp).1
  unfold poolList at hnd
  rw [List.append_assoc] at hnd
  have h2 := (List.nodup_append.mp hnd).2.1
  have hdisj := List.disjoint_of_nodup_append h2
  exact hdisj hx (by simp [hc])

theorem inv_addEvent {env : Env} {k : Nat} {s : GameState} {e : GameEvent}
    (hInv : Inv s) : Inv (addEvent env k s e) := hInv

theorem inv_ensurePoolsReady (env : Env) (s : GameState)
    (hsh : ShuffleOk env) (hInv : Inv s) : Inv (ensurePoolsReady env s) := by
  unfold ensurePoolsReady
  repeat' split
  all_goals (try exact hInv)
  refine ⟨hInv.1, hInv.2.1, ?_, hInv.2.2.2⟩
  intro p hp
  rw [Option.some_inj] at hp
  subst hp
  constructor
  · simp only [poolList, Option.toList_none, List.append_nil]
    exact ((hsh _).symm).nodup hInv.1
  · intro x hx
    simp only [poolList, Option.toList_none, List.append_nil] at hx
    exact (hsh _).mem_iff.mp hx

theorem inv_drawIfNeeded (env : Env) (s : GameState)
    (hsh : ShuffleOk env) (hInv : Inv s) : Inv (drawIfNeeded env s) := by
  cases hround : s.currentRound with
  | none => simp only [drawIfNeeded, hround]; exact hInv
  | some r =>
    cases hpools : s.pools with
    | none => simp only [drawIfNeeded, hround, hpools]; exact hInv
    | some p =>
      by_cases htruthy : optStrTruthy p.currentItemId = true
      · simp only [drawIfNeeded, hround, hpools, htruthy, if_true]
        exact hInv
      · have hcur : p.currentItemId = none := by
          cases hc : p.currentItemId with
          | none => rfl
          | some c =>
            exact absurd
              (by simp [optStrTruthy, hc, inv_cur_ne_empty hInv hpools hc])
              htruthy
        simp only [drawIfNeeded, hround, hpools, htruthy, Bool.false_eq_true,
          if_false]
        by_cases href : (p.primary.isEmpty && !p.deferred.isEmpty) = true
        · rw [if_pos href]
          have hpri : p.primary = [] := by
            rcases Bool.and_eq_true _ _ |>.mp href with ⟨h1, -⟩
            simpa using h1
          cases hsd : env.shuffle p.deferred with
          | nil => exact hInv
          | cons next rest =>
            refine ⟨hInv.1, hInv.2.1, ?_, hInv.2.2.2⟩
            intro q hq
            rw [Option.some_inj] at hq
            subst hq
            apply poolsOk_of_perm _ (hInv.2.2.1 p hpools)
            have h1 : poolList { primary := rest, deferred := [], currentItemId := some next } = rest ++ [next] := by
              simp [poolList]
            have h2 : poolList p = p.deferred := by
              simp [poolList, hpri, hcur]
            rw [h1, h2]
            have h3 : (rest ++ [next]).Perm (next :: rest) :=
              List.perm_append_singleton _ _
            have h4 : (next :: rest).Perm p.deferred := by
              rw [← hsd]; exact hsh p.deferred
            exact h3.trans h4
        · rw [if_neg href]
          cases hpri : p.primary with
          | nil => exact hInv
          | cons next rest =>
            refine ⟨hInv.1, hInv.2.1, ?_, hInv.2.2.2⟩
            intro q hq
            rw [Option.some_inj] at hq
            subst hq
            apply poolsOk_of_perm _ (hInv.2.2.1 p hpools)
            have h1 : poolList { primary := rest, deferred := p.deferred, currentItemId := some next } = rest ++ p.deferred ++ [next] := by
              simp [poolList]
            have h2 : poolList p = (next :: rest) ++ p.deferred := by
              simp [poolList, hpri, hcur]
            rw [h1, h2]
            exact List.perm_append_singleton next (rest ++ p.deferred)

theorem inv_completeRound (env : Env) (k : Nat) (s : GameState)
    (hInv : Inv s) : Inv (completeRound env k s) := by
  unfold completeRound
  split
  · exact hInv
  · refine ⟨hInv.1, hInv.2.1, hInv.2.2.1, ?_⟩
    intro e he
    rw [addEvent_undoStack] at he
    exact absurd he (List.not_mem_nil e)

theorem inv_applyUndo (env : Env) (s : GameState) (hInv : Inv s) :
    Inv (applyUndo env s) := by
  unfold applyUndo
  cases hlast : s.undoStack.getLast? with
  | none => exact hInv
  | some top =>
    cases hround : s.currentRound with
    | none => exact hInv
    | some r =>
      dsimp only []
      by_cases hne : top.round ≠ r
      · rw [if_pos hne]; exact hInv
      · rw [if_neg hne]
        have htop : top ∈ s.undoStack := List.mem_of_mem_getLast? hlast
        refine ⟨hInv.1, hInv.2.1, ?_, ?_⟩
        · intro p hp
          have hp2 : some (clonePools top.pools) = some p := hp
          rw [Option.some_inj] at hp2
          subst hp2
          exact hInv.2.2.2 top htop
        · intro e he
          have he2 : e ∈ s.undoStack.dropLast := he
          exact hInv.2.2.2 e ((List.dropLast_sublist _).subset he2)

theorem validateEntryItems_length (ex : List FishbowlItem) :
    ∀ (rs : List String) (seen : List (String × Nat)) (i : Nat)
      (out : List (String × String)),
      validateEntryItems ex seen i rs = .ok out → out.length = rs.length := by
  intro rs
  induction rs with
  | nil =>
    intro seen i out h
    simp only [validateEntryItems] at h
    cases h
    rfl
  | cons raw rest ih =>
    intro seen i out h
    simp only [validateEntryItems] at h
    split at h
    · cases h
    · split at h
      · cases h
      · split at h
        · cases h
        · split at h
          · cases h
          · rename_i tail heq
            cases h
            simp [ih _ _ _ heq]

theorem mkItemRecords_ids_mem (env : Env) (pid : String) :
    ∀ (l : List (String × String)) (k : Nat) (x : String),
      x ∈ (mkItemRecords env pid k l).map (fun it => it.id) →
      ∃ i, k ≤ i ∧ i < k + l.length ∧ x = env.freshIds i := by
  intro l
  induction l with
  | nil => intro k x hx; simp [mkItemRecords] at hx
  | cons it rest ih =>
    intro k x hx
    simp only [mkItemRecords, List.map_cons, List.mem_cons] at hx
    rcases hx with hx | hx
    · exact ⟨k, Nat.le_refl k, by simp, hx⟩
    · rcases ih (k + 1) x hx with ⟨i, h1, h2, h3⟩
      exact ⟨i, by omega, by simp only [List.length_cons]; omega, h3⟩

theorem mkItemRecords_ids_nodup (env : Env) (pid : String)
    (hinj : ∀ i, i < 6 → ∀ j, j < 6 → i ≠ j → env.freshIds i ≠ env.freshIds j) :
    ∀ (l : List (String × String)) (k : Nat), k + l.length ≤ 6 →
      ((mkItemRecords env pid k l).map (fun it => it.id)).Nodup := by
  intro l
  induction l with
  | nil => intro k hk; simp [mkItemRecords]
  | cons it rest ih =>
    intro k hk
    simp only [List.length_cons] at hk
    simp only [mkItemRecords, List.map_cons, List.nodup_cons]
    refine ⟨?_, ih (k + 1) (by omega)⟩
    intro hmem
    rcases mkItemRecords_ids_mem env pid rest (k + 1) _ hmem with ⟨i, h1, h2, h3⟩
    exact hinj k (by omega) i (by omega) (by omega) h3

/-- One reducer step preserves the invariant. -/
theorem inv_step (env : Env) (s : GameState) (a : Action)
    (henv : GoodEnv env s) (hInv : Inv s) : Inv (gameReducer env s a) := by
  obtain ⟨hsh, hinj, hfresh, hne⟩ := henv
  have hInvAux : ∀ t : GameState, itemIds t = itemIds s →
      (∀ p, t.pools = some p → PoolsOk (itemIds s) p) → t.undoStack = [] → Inv t := by
    intro t hids hpools hstack
    refine ⟨hids ▸ hInv.1, hids ▸ hInv.2.1, ?_, ?_⟩
    · intro p hp
      rw [hids]
      exact hpools p hp
    · intro e he
      rw [hstack] at he
      exact absurd he (List.not_mem_nil e)
  have hFresh : ∀ t : GameState, t.items = [] → t.pools = none →
      t.undoStack = [] → Inv t := by
    intro t hids hpools hstack
    refine ⟨?_, ?_, ?_, ?_⟩
    · simp [itemIds, hids]
    · simp [itemIds, hids]
    · intro p hp
      rw [hpools] at hp
      cases hp
    · intro e he
      rw [hstack] at he
      exact absurd he (List.not_mem_nil e)
  cases a
  case HOST_SET_TEAM_NAME _ _ =>
    simp only [gameReducer]; split
    · exact hInv
    · exact hInv
  case HOST_SET_PLAYER_COUNT _ =>
    simp only [gameReducer]; split
    · exact hInv
    · exact hInv
  case HOST_SET_TIMER _ _ =>
    simp only [gameReducer]; split
    · exact hInv
    · split <;> exact hInv
  case HOST_START_WORD_ENTRY =>
    simp only [gameReducer]; split
    · exact hInv
    · exact hFresh _ rfl rfl rfl
  case ENTRY_ACK_HANDOFF =>
    simp only [gameReducer]; split
    · exact hInv
    · exact hInv
  case HANDOFF_ACK =>
    simp only [gameReducer]; split
    · exact hInv
    · exact hInv
  case TIME_UP_ACK =>
    simp only [gameReducer]; split
    · exact hInv
    · exact hInv
  case HOST_RESTART_GAME =>
    exact hFresh _ rfl rfl rfl
  case TURN_UNDO =>
    simp only [gameReducer]; split
    · exact hInv
    · exact inv_applyUndo env s hInv
  case READY_START_ROUND1 =>
    simp only [gameReducer]
    split
    · exact hInv
    · split
      · exact hInv
      · apply inv_addEvent
        apply inv_ensurePoolsReady env _ hsh
        refine hInvAux _ rfl ?_ rfl
        intro p hp
        exact Option.noConfusion (show (none : Option RoundPools) = some p from hp)
  case TURN_START =>
    simp only [gameReducer]
    split
    · exact hInv
    · split
      · exact hInv
      · have hs1 : Inv (drawIfNeeded env (ensurePoolsReady env s)) :=
          inv_drawIfNeeded env _ hsh (inv_ensurePoolsReady env s hsh hInv)
        have hids1 : itemIds (drawIfNeeded env (ensurePoolsReady env s)) = itemIds s := by
          unfold itemIds
          rw [drawIfNeeded_items, ensurePoolsReady_items]
        split
        · exact inv_completeRound env 4 _ hs1
        · apply inv_addEvent
          refine hInvAux _ hids1 ?_ rfl
          intro p hp
          rw [← hids1]
          exact hs1.2.2.1 p hp
  case HOST_RESTART_ROUND =>
    simp only [gameReducer]
    split
    · exact hInv
    · split
      · exact hInv
      · apply inv_ensurePoolsReady env _ hsh
        refine hInvAux _ rfl ?_ rfl
        intro p hp
        exact Option.noConfusion (show (none : Option RoundPools) = some p from hp)
  case ROUND_PROCEED =>
    simp only [gameReducer]
    split
    · exact hInv
    · split
      · exact hInv
      · split
        · exact hInv
        · apply inv_addEvent
          apply inv_ensurePoolsReady env _ hsh
          refine hInvAux _ rfl ?_ rfl
          intro p hp
          exact Option.noConfusion (show (none : Option RoundPools) = some p from hp)
  case TURN_SYNC_TIMER nowMs =>
    simp only [gameReducer]
    split
    · exact hInv
    · split
      · exact hInv
      · split
        · exact hInv
        · split
          · exact hInv
          · apply inv_addEvent
            cases hpools : s.pools with
            | none =>
              refine hInvAux _ rfl ?_ rfl
              intro p hp
              exact Option.noConfusion (show (none : Option RoundPools) = some p from hp)
            | some p =>
              by_cases htruthy : optStrTruthy p.currentItemId = true
              · cases hcur : p.currentItemId with
                | none => exact absurd htruthy (by simp [optStrTruthy, hcur])
                | some c =>
                  refine hInvAux _ rfl ?_ rfl
                  intro q hq
                  have hq2 : (if optStrTruthy p.currentItemId = true then some { primary := env.shuffle (p.primary ++ [p.currentItemId.getD ""]), deferred := p.deferred, currentItemId := (none : Option String) } else some p) = some q := hq
                  rw [if_pos htruthy, Option.some_inj] at hq2
                  subst hq2
                  apply poolsOk_of_perm _ (hInv.2.2.1 p hpools)
                  have h1 : poolList { primary := env.shuffle (p.primary ++ [p.currentItemId.getD ""]), deferred := p.deferred, currentItemId := (none : Option String) } = env.shuffle (p.primary ++ [c]) ++ p.deferred := by
                    simp [poolList, hcur]
                  have h2 : poolList p = p.primary ++ p.deferred ++ [c] := by
                    simp [poolList, hcur]
                  rw [h1, h2]
                  have h3 : (env.shuffle (p.primary ++ [c])).Perm (p.primary ++ [c]) :=
                    hsh _
                  have h4 : (env.shuffle (p.primary ++ [c]) ++ p.deferred).Perm
                      ((p.primary ++ [c]) ++ p.deferred) := h3.append_right _
                  refine h4.trans ?_
                  have h5 : ((p.primary ++ [c]) ++ p.deferred).Perm
                      (p.primary ++ ([c] ++ p.deferred)) :=
                    List.Perm.of_eq (List.append_assoc _ _ _)
                  refine h5.trans ?_
                  rw [List.append_assoc]
                  exact (List.perm_append_comm.append_left p.primary)
              · refine hInvAux _ rfl ?_ rfl
                intro q hq
                have hq2 : (if optStrTruthy p.currentItemId = true then some { primary := env.shuffle (p.primary ++ [p.currentItemId.getD ""]), deferred := p.deferred, currentItemId := (none : Option String) } else some p) = some q := hq
                rw [if_neg htruthy, Option.some_inj] at hq2
                subst hq2
                exact hInv.2.2.1 p hpools
  case TURN_PASSED =>
    simp only [gameReducer]
    split
    · exact hInv
    · cases hround : s.currentRound with
      | none => exact hInv
      | some r =>
        cases hpools : s.pools with
        | none => exact hInv
        | some p =>
          dsimp only []
          by_cases htruthy : optStrTruthy p.currentItemId = true
          · rw [if_neg (by simp [htruthy])]
            cases hcur : p.currentItemId with
            | none => exact absurd htruthy (by simp [optStrTruthy, hcur])
            | some c =>
              apply inv_addEvent
              apply inv_drawIfNeeded env _ hsh
              refine ⟨hInv.1, hInv.2.1, ?_, ?_⟩
              · intro q hq
                rw [Option.some_inj] at hq
                subst hq
                apply poolsOk_of_perm _ (hInv.2.2.1 p hpools)
                exact List.Perm.of_eq (by simp [poolList, hcur, List.append_assoc])
              · intro e he
                rcases List.mem_append.mp (mem_sliceLastTen he) with he2 | he2
                · exact hInv.2.2.2 e he2
                · rw [List.mem_singleton] at he2
                  subst he2
                  exact hInv.2.2.1 p hpools
          · rw [if_pos (by revert htruthy; cases optStrTruthy p.currentItemId <;> simp)]
            exact hInv
  case TURN_GUESSED =>
    simp only [gameReducer]
    split
    · exact hInv
    · cases hround : s.currentRound with
      | none => exact hInv
      | some r =>
        cases hpools : s.pools with
        | none => exact hInv
        | some p =>
          dsimp only []
          by_cases htruthy : optStrTruthy p.currentItemId = true
          · rw [if_neg (by simp [htruthy])]
            have hs3 : Inv (addEvent env 4 (drawIfNeeded env
                (guessedMid s r p)) (guessedEvent env s r p)) := by
              apply inv_addEvent
              apply inv_drawIfNeeded env _ hsh
              refine ⟨hInv.1, hInv.2.1, ?_, ?_⟩
              · intro q hq
                have hq2 : some { primary := p.primary, deferred := p.deferred, currentItemId := (none : Option String) } = some q := hq
                rw [Option.some_inj] at hq2
                subst hq2
                apply poolsOk_of_sublist _ (hInv.2.2.1 p hpools)
                have h1 : poolList { primary := p.primary, deferred := p.deferred, currentItemId := (none : Option String) } = p.primary ++ p.deferred := by
                  simp [poolList]
                rw [h1]
                unfold poolList
                exact List.sublist_append_left _ _
              · intro e he
                have he1 : e ∈ sliceLastTen (s.undoStack ++ [guessedEntry s r p]) := he
                rcases List.mem_append.mp (mem_sliceLastTen he1) with he2 | he2
                · exact hInv.2.2.2 e he2
                · rw [List.mem_singleton] at he2
                  subst he2
                  exact hInv.2.2.1 p hpools
            split
            · exact inv_completeRound env 5 _ hs3
            · exact hs3
          · rw [if_pos (by revert htruthy; cases optStrTruthy p.currentItemId <;> simp)]
            exact hInv
  case ENTRY_SUBMIT_PLAYER pn team i1 i2 i3 =>
    simp only [gameReducer]
    split
    · exact hInv
    · split
      · exact hInv
      · split
        · exact hInv
        · cases hok : validateEntryItems s.items [] 0 [i1, i2, i3] with
          | error e => exact hInv
          | ok out =>
            have hlen : out.length = 3 := by
              simpa using validateEntryItems_length s.items [i1, i2, i3] [] 0 out hok
            refine ⟨?_, ?_, ?_, ?_⟩
            · show ((s.items ++ mkItemRecords env (env.freshIds 0) 1 out).map
                (fun it => it.id)).Nodup
              rw [List.map_append]
              refine List.Nodup.append hInv.1
                (mkItemRecords_ids_nodup env (env.freshIds 0) hinj out 1 (by omega)) ?_
              intro x hx1 hx2
              rcases mkItemRecords_ids_mem env (env.freshIds 0) out 1 x hx2 with
                ⟨i, h1, h2, h3⟩
              exact hfresh i (by omega) (h3 ▸ hx1)
            · show ¬("" ∈ (s.items ++ mkItemRecords env (env.freshIds 0) 1 out).map
                (fun it => it.id))
              rw [List.map_append]
              intro hmem
              rcases List.mem_append.mp hmem with h | h
              · exact hInv.2.1 h
              · rcases mkItemRecords_ids_mem env (env.freshIds 0) out 1 _ h with
                  ⟨i, h1, h2, h3⟩
                exact hne i (by omega) h3.symm
            · intro p hp
              have hp2 : s.pools = some p := hp
              apply poolsOk_mono _ (hInv.2.2.1 p hp2)
              intro x hx
              show x ∈ (s.items ++ mkItemRecords env (env.freshIds 0) 1 out).map
                (fun it => it.id)
              rw [List.map_append]
              exact List.mem_append_left _ hx
            · intro e he
              have he2 : e ∈ s.undoStack := he
              apply poolsOk_mono _ (hInv.2.2.2 e he2)
              intro x hx
              show x ∈ (s.items ++ mkItemRecords env (env.freshIds 0) 1 out).map
                (fun it => it.id)
              rw [List.map_append]
              exact List.mem_append_left _ hx

theorem inv_init : Inv createNewGameState :=
  ⟨List.nodup_nil, by simp [itemIds, createNewGameState],
   fun p hp => Option.noConfusion hp,
   fun e he => absurd he (List.not_mem_nil e)⟩

/-- Every reachable state satisfies the pool invariant. -/
theorem reachable_inv (s : GameState) (hs : Reachable s) : Inv s := by
  induction hs with
  | init => exact inv_init
  | step env a hs henv ih => exact inv_step env _ a henv ih

/-- Environments used for the concrete six-item game trace. -/
def traceEnvP : Env :=
  { shuffle := fun l => l, now := 0
    freshIds := fun i => ["p1", "w1", "w2", "w3", "e1", "e2"].getD i "?" }

def traceEnvQ : Env :=
  { shuffle := fun l => l, now := 0
    freshIds := fun i => ["p2", "w4", "w5", "w6", "e3", "e4"].getD i "?" }

def traceEnvZ : Env :=
  { shuffle := fun l => l, now := 0
    freshIds := fun i => ["z1", "z2", "z3", "z4", "z5", "z6"].getD i "?" }

/-- A concrete reachable state: two players of two, six items, round 1
just started (identity shuffle). -/
def traceReadyState : GameState :=
  gameReducer traceEnvZ
    (gameReducer traceEnvQ
      (gameReducer traceEnvZ
        (gameReducer traceEnvP
          (gameReducer traceEnvZ
            (gameReducer traceEnvZ createNewGameState (.HOST_SET_PLAYER_COUNT 2))
            .HOST_START_WORD_ENTRY)
          (.ENTRY_SUBMIT_PLAYER "P" .A "aa" "bb" "cc"))
        .ENTRY_ACK_HANDOFF)
      (.ENTRY_SUBMIT_PLAYER "Q" .B "dd" "ee" "ff"))
    .READY_START_ROUND1

theorem traceReadyState_reachable : Reachable traceReadyState := by
  refine .step traceEnvZ .READY_START_ROUND1
    (.step traceEnvQ (.ENTRY_SUBMIT_PLAYER "Q" .B "dd" "ee" "ff")
      (.step traceEnvZ .ENTRY_ACK_HANDOFF
        (.step traceEnvP (.ENTRY_SUBMIT_PLAYER "P" .A "aa" "bb" "cc")
          (.step traceEnvZ .HOST_START_WORD_ENTRY
            (.step traceEnvZ (.HOST_SET_PLAYER_COUNT 2) .init ?_) ?_) ?_) ?_) ?_) ?_
  all_goals
    exact ⟨fun l => List.Perm.refl l, by decide, by decide, by decide⟩

/-! ## Claim C2: pass fairness -/

/-- Core draw property: a deferred item can only be drawn when the primary
pool was empty (so the refill from deferred happened). -/
theorem drawIfNeeded_deferred (env : Env) (s : GameState)
    (pri dfr : List String) (cur : Option String) (x : String) (q : RoundPools)
    (hp : s.pools = some { primary := pri, deferred := dfr, currentItemId := cur })
    (hnd : (pri ++ dfr ++ cur.toList).Nodup)
    (hx : x ∈ dfr)
    (hq : (drawIfNeeded env s).pools = some q)
    (hcur : q.currentItemId = some x) :
    pri = [] := by
  have hxcur : cur ≠ some x := by
    intro hc
    rw [List.append_assoc] at hnd
    have h2 := (List.nodup_append.mp hnd).2.1
    exact (List.disjoint_of_nodup_append h2) hx (by simp [hc])
  have hxpri : ¬x ∈ pri := by
    intro hxp
    have h1 := List.nodup_append.mp ((List.append_assoc pri dfr _) ▸ hnd)
    exact h1.2.2 hxp (List.mem_append_left _ hx)
  cases hround : s.currentRound with
  | none =>
    rw [drawIfNeeded, hround] at hq
    rw [hp] at hq
    rw [Option.some_inj] at hq
    subst hq
    exact absurd hcur hxcur
  | some r =>
    by_cases htruthy : optStrTruthy cur = true
    · have : drawIfNeeded env s = s := by
        rw [drawIfNeeded, hround, hp]
        simp [htruthy]
      rw [this, hp, Option.some_inj] at hq
      subst hq
      exact absurd hcur hxcur
    · rw [drawIfNeeded, hround, hp] at hq
      simp only [htruthy, Bool.false_eq_true, if_false] at hq
      by_cases href : (pri.isEmpty && !dfr.isEmpty) = true
      · rcases Bool.and_eq_true _ _ |>.mp href with ⟨h1, -⟩
        simpa using h1
      · simp only [href, Bool.false_eq_true, if_false] at hq
        cases hpri : pri with
        | nil => rfl
        | cons next rest =>
          rw [hpri] at hq
          dsimp only [] at hq
          rw [Option.some_inj] at hq
          subst hq
          rw [Option.some_inj] at hcur
          subst hcur
          exact absurd (hpri ▸ List.mem_cons_self _ _) hxpri

theorem ensurePoolsReady_of_some (env : Env) (s : GameState) (p : RoundPools)
    (hp : s.pools = some p) : ensurePoolsReady env s = s := by
  cases hr : s.currentRound with
  | none => simp [ensurePoolsReady, hr]
  | some r => simp [ensurePoolsReady, hr, hp]

/-- Pools after an accepted TURN_START are those produced by the draw. -/
theorem turnStart_pools (env : Env) (s : GameState) (r : RoundNumber)
    (hscr : s.screen = .turnStart) (hround : s.currentRound = some r) :
    (gameReducer env s .TURN_START).pools =
      (drawIfNeeded env (ensurePoolsReady env s)).pools := by
  simp only [gameReducer, hround]
  rw [if_neg (show ¬(s.screen ≠ Screen.turnStart) by rw [hscr]; simp)]
  split
  · rw [completeRound_pools]
  · rw [addEvent_pools]

/-- Pools after an accepted TURN_PASSED are those produced by the draw
over the pass-updated state. -/
theorem turnPassed_pools (env : Env) (s : GameState) (r : RoundNumber)
    (p : RoundPools)
    (hscr : s.screen = .turnActive) (hround : s.currentRound = some r)
    (hp : s.pools = some p) (htruthy : optStrTruthy p.currentItemId = true) :
    (gameReducer env s .TURN_PASSED).pools =
      (drawIfNeeded env
        { s with
          pools := some { primary := p.primary, deferred := p.deferred ++ [p.currentItemId.getD ""], currentItemId := none }
          undoStack := sliceLastTen (s.undoStack ++ [passedEntry s r p])
          lastError := none }).pools := by
  simp only [gameReducer]
  rw [if_neg (show ¬(s.screen ≠ Screen.turnActive) by rw [hscr]; simp)]
  simp only [hround, hp]
  rw [if_neg (by simp [htruthy])]
  rw [addEvent_pools]
  rfl

/-- Pools after an accepted TURN_GUESSED are those produced by the draw
over the guess-updated state. -/
theorem turnGuessed_pools (env : Env) (s : GameState) (r : RoundNumber)
    (p : RoundPools)
    (hscr : s.screen = .turnActive) (hround : s.currentRound = some r)
    (hp : s.pools = some p) (htruthy : optStrTruthy p.currentItemId = true) :
    (gameReducer env s .TURN_GUESSED).pools =
      (drawIfNeeded env (guessedMid s r p)).pools := by
  simp only [gameReducer]
  rw [if_neg (show ¬(s.screen ≠ Screen.turnActive) by rw [hscr]; simp)]
  simp only [hround, hp]
  rw [if_neg (by simp [htruthy])]
  split
  · rw [completeRound_pools, addEvent_pools]
    rfl
  · rw [addEvent_pools]
    rfl

/-- C2: pass fairness. In any reachable state, for any of the drawing
actions (TURN_START, TURN_PASSED, TURN_GUESSED), an item sitting in the
deferred pool can become the presented item only if the primary pool was
empty before the action (so the deferred pool was reshuffled into a new
primary). Together with C1 this means a passed item is never redrawn
before the primary has first been exhausted. -/
theorem pass_fairness (s : GameState) (hs : Reachable s) (env : Env)
    (henv : GoodEnv env s) (a : Action)
    (ha : a = .TURN_START ∨ a = .TURN_PASSED ∨ a = .TURN_GUESSED)
    (p : RoundPools) (hp : s.pools = some p) (x : String) (hx : x ∈ p.deferred)
    (q : RoundPools) (hq : (gameReducer env s a).pools = some q)
    (hcur : q.currentItemId = some x) :
    p.primary = [] := by
  have hInv := reachable_inv s hs
  have hOk := hInv.2.2.1 p hp
  have hxcur : p.currentItemId ≠ some x := cur_not_in_deferred hInv hp hx
  have hnoop : gameReducer env s a = s → p.primary = [] := by
    intro hgr
    rw [hgr, hp, Option.some_inj] at hq
    subst hq
    exact absurd hcur hxcur
  have hndp : (p.primary ++ p.deferred ++ p.currentItemId.toList).Nodup := hOk.1
  rcases ha with rfl | rfl | rfl
  · -- TURN_START
    by_cases hscr : s.screen = Screen.turnStart
    · cases hround : s.currentRound with
      | none =>
        apply hnoop
        simp [gameReducer, hscr, hround]
      | some r =>
        rw [turnStart_pools env s r hscr hround,
          ensurePoolsReady_of_some env s p hp] at hq
        exact drawIfNeeded_deferred env s p.primary p.deferred p.currentItemId
          x q (by rw [hp]) hndp hx hq hcur
    · apply hnoop
      simp [gameReducer, hscr]
  · -- TURN_PASSED
    by_cases hscr : s.screen = Screen.turnActive
    · cases hround : s.currentRound with
      | none =>
        apply hnoop
        simp [gameReducer, hscr, hround]
      | some r =>
        by_cases htruthy : optStrTruthy p.currentItemId = true
        · obtain ⟨c, hc⟩ : ∃ c, p.currentItemId = some c := by
            cases hcc : p.currentItemId with
            | none => rw [hcc] at htruthy; exact absurd htruthy (by simp [optStrTruthy])
            | some c => exact ⟨c, rfl⟩
          rw [turnPassed_pools env s r p hscr hround hp htruthy] at hq
          exact drawIfNeeded_deferred env _ p.primary
            (p.deferred ++ [p.currentItemId.getD ""]) none x q rfl
            (by
              simp only [Option.toList_none, List.append_nil, hc,
                Option.getD_some, ← List.append_assoc]
              have : p.primary ++ p.deferred ++ [c] =
                  p.primary ++ p.deferred ++ (some c).toList := by simp
              rw [this, ← hc]
              exact hndp)
            (List.mem_append_left _ hx) hq hcur
        · apply hnoop
          simp [gameReducer, hscr, hround, hp, htruthy]
    · apply hnoop
      simp [gameReducer, hscr]
  · -- TURN_GUESSED
    by_cases hscr : s.screen = Screen.turnActive
    · cases hround : s.currentRound with
      | none =>
        apply hnoop
        simp [gameReducer, hscr, hround]
      | some r =>
        by_cases htruthy : optStrTruthy p.currentItemId = true
        · rw [turnGuessed_pools env s r p hscr hround hp htruthy] at hq
          exact drawIfNeeded_deferred env _ p.primary p.deferred none x q rfl
            (by
              simp only [Option.toList_none, List.append_nil]
              exact List.Sublist.nodup (List.sublist_append_left _ _) hndp)
            hx hq hcur
        · apply hnoop
          simp [gameReducer, hscr, hround, hp, htruthy]
    · apply hnoop
      simp [gameReducer, hscr]

/-- The trace continued: turn started, "w1" passed, then four guesses so
that the primary pool is exhausted and "w6" is presented with only the
passed "w1" left in deferred. -/
def traceTurnState : GameState :=
  gameReducer traceEnvZ
    (gameReducer traceEnvZ
      (gameReducer traceEnvZ
        (gameReducer traceEnvZ
          (gameReducer traceEnvZ
            (gameReducer traceEnvZ
              (gameReducer traceEnvZ traceReadyState .HANDOFF_ACK)
              .TURN_START)
            .TURN_PASSED)
          .TURN_GUESSED)
        .TURN_GUESSED)
      .TURN_GUESSED)
    .TURN_GUESSED

theorem traceTurnState_reachable : Reachable traceTurnState := by
  refine .step traceEnvZ .TURN_GUESSED
    (.step traceEnvZ .TURN_GUESSED
      (.step traceEnvZ .TURN_GUESSED
        (.step traceEnvZ .TURN_GUESSED
          (.step traceEnvZ .TURN_PASSED
            (.step traceEnvZ .TURN_START
              (.step traceEnvZ .HANDOFF_ACK traceReadyState_reachable ?_) ?_) ?_)
          ?_) ?_) ?_) ?_
  all_goals
    exact ⟨fun l => List.Perm.refl l, by decide, by decide, by decide⟩

/-- Witness for C2: in the concrete trace, the passed item "w1" sits in
deferred, the final guess redraws it — and indeed the primary pool was
empty at that point. -/
theorem pass_fairness_witness :
    traceTurnState.pools =
      some { primary := [], deferred := ["w1"], currentItemId := some "w6" } ∧
    (gameReducer traceEnvZ traceTurnState .TURN_GUESSED).pools =
      some { primary := [], deferred := [], currentItemId := some "w1" } ∧
    RoundPools.primary { primary := [], deferred := ["w1"], currentItemId := some "w6" } = [] :=
  ⟨rfl, rfl,
   pass_fairness traceTurnState traceTurnState_reachable traceEnvZ
     ⟨fun l => List.Perm.refl l, by decide, by decide, by decide⟩
     .TURN_GUESSED (Or.inr (Or.inr rfl))
     { primary := [], deferred := ["w1"], currentItemId := some "w6" } rfl
     "w1" (by decide)
     { primary := [], deferred := [], currentItemId := some "w1" } rfl rfl⟩

/-! ## Claim C1: pool conservation -/

/-- Effect of undoing the entry `e` on the guessed-ids list: undoing a
guess removes the word the entry had scored, undoing a pass (which scored
nothing) leaves the list unchanged. -/
def undoGhost (g : List String) (e : UndoEntry) : List String :=
  match e.kind with
  | .WORD_GUESSED => g.erase (e.wordId.getD "")
  | .WORD_PASSED => g

/-- The ids of the items already guessed in the active round, maintained
action by action alongside the reducer: an accepted TURN_GUESSED appends
the presented item's id, a successful TURN_UNDO of a guess removes the
undone id, and every transition that rebuilds the pools from the full
item set (start of word entry, round start, round proceed, round or game
restart) resets the list; every other action leaves it unchanged.  Each
guard mirrors the acceptance condition of the corresponding `gameReducer`
branch. -/
def ghostStep (s : GameState) (a : Action) (g : List String) : List String :=
  match a with
  | .HOST_START_WORD_ENTRY => if canEditSetup s = false then g else []
  | .READY_START_ROUND1 =>
    if s.screen ≠ .ready then g
    else if (s.items.length : Int) ≠ s.playerCount * 3 then g
    else []
  | .TURN_START =>
    if s.screen ≠ .turnStart then g
    else
      match s.currentRound with
      | none => g
      | some _ =>
        match s.pools with
        | none => []
        | some _ => g
  | .TURN_GUESSED =>
    if s.screen ≠ .turnActive then g
    else
      match s.currentRound, s.pools with
      | some _, some p =>
        if optStrTruthy p.currentItemId = false then g
        else g ++ [p.currentItemId.getD ""]
      | _, _ => g
  | .TURN_UNDO =>
    if s.screen ≠ .turnActive then g
    else
      match s.undoStack.getLast? with
      | none => g
      | some top =>
        match s.currentRound with
        | none => g
        | some r => if top.round ≠ r then g else undoGhost g top
  | .ROUND_PROCEED =>
    if s.screen ≠ .roundComplete then g
    else
      match s.currentRound with
      | none => g
      | some round => if round = .three then g else []
  | .HOST_RESTART_ROUND =>
    if s.screen = .turnActive then g
    else
      match s.currentRound with
      | none => g
      | some _ => []
  | .HOST_RESTART_GAME => []
  | _ => g

/-- Reachability instrumented with the guessed-ids list: a fresh game has
guessed nothing, and each action updates the list by `ghostStep`. -/
inductive ReachableG : GameState → List String → Prop
  | init : ReachableG createNewGameState []
  | step {s : GameState} {g : List String} (env : Env) (a : Action)
      (hs : ReachableG s g) (henv : GoodEnv env s) :
      ReachableG (gameReducer env s a) (ghostStep s a g)

theorem reachableG_reachable {s : GameState} {g : List String}
    (h : ReachableG s g) : Reachable s := by
  induction h with
  | init => exact Reachable.init
  | step env a hs henv ih => exact Reachable.step env a ih henv

/-- The instrumentation is total: every reachable state carries a
guessed-ids list. -/
theorem reachable_reachableG (s : GameState) (h : Reachable s) :
    ∃ g, ReachableG s g := by
  induction h with
  | init => exact ⟨[], .init⟩
  | step env a hs henv ih =>
    rcases ih with ⟨g, hg⟩
    exact ⟨ghostStep _ a g, .step env a hg henv⟩

/-- Coherence of the undo stack (given top first) with the guessed list:
restoring each snapshot in turn keeps pools-plus-guessed a permutation of
the full item-id set. -/
def StackOk (ids : List String) : List UndoEntry → List String → Prop
  | [], _ => True
  | e :: rest, g =>
    (poolList e.pools ++ undoGhost g e).Perm ids ∧ StackOk ids rest (undoGhost g e)

/-- The ghost invariant: the live pools plus the guessed list permute the
stored item ids, the undo stack is coherent, and during word entry there
are no pools and no undo entries. -/
def InvG (s : GameState) (g : List String) : Prop :=
  (∀ p, s.pools = some p → (poolList p ++ g).Perm (itemIds s)) ∧
  StackOk (itemIds s) s.undoStack.reverse g ∧
  ((s.screen = .wordEntry ∨ s.screen = .entryHandoff) →
    s.pools = none ∧ s.undoStack = [])

theorem stackOk_take (ids : List String) :
    ∀ (l : List UndoEntry) (g : List String) (n : Nat),
      StackOk ids l g → StackOk ids (l.take n) g := by
  intro l
  induction l with
  | nil =>
    intro g n _
    rw [List.take_nil]
    exact True.intro
  | cons e rest ih =>
    intro g n h
    cases n with
    | zero => exact True.intro
    | succ n => exact ⟨h.1, ih _ n h.2⟩

theorem stackOk_push (ids : List String) (st : List UndoEntry)
    (g g' : List String) (e : UndoEntry)
    (hST : StackOk ids st.reverse g)
    (hg : undoGhost g' e = g)
    (hperm : (poolList e.pools ++ g).Perm ids) :
    StackOk ids (sliceLastTen (st ++ [e])).reverse g' := by
  rw [sliceLastTen_concat, List.reverse_append]
  show (poolList e.pools ++ undoGhost g' e).Perm ids ∧
    StackOk ids (st.drop (st.length + 1 - 10)).reverse (undoGhost g' e)
  refine ⟨by rw [hg]; exact hperm, ?_⟩
  rw [hg, List.reverse_drop]
  exact stackOk_take ids st.reverse g _ hST

theorem stackOk_pop (ids : List String) (st : List UndoEntry) (g : List String)
    (top : UndoEntry) (hlast : st.getLast? = some top)
    (hST : StackOk ids st.reverse g) :
    (poolList top.pools ++ undoGhost g top).Perm ids ∧
    StackOk ids st.dropLast.reverse (undoGhost g top) := by
  have hrev : st.reverse = top :: st.dropLast.reverse := by
    conv_lhs => rw [← List.dropLast_append_getLast? top hlast]
    rw [List.reverse_append]
    rfl
  rw [hrev] at hST
  exact hST

theorem ensurePoolsReady_of_none (env : Env) (s : GameState) (r : RoundNumber)
    (hr : s.currentRound = some r) (hp : s.pools = none) :
    (ensurePoolsReady env s).pools =
      some { primary := env.shuffle (itemIds s), deferred := [], currentItemId := none } := by
  simp [ensurePoolsReady, hr, hp, itemIds]

theorem completeRound_screen (env : Env) (k : Nat) (s : GameState)
    (r : RoundNumber) (h : s.currentRound = some r) :
    (completeRound env k s).screen = .roundComplete := by
  unfold completeRound
  split
  · simp_all
  · rfl

/-- The draw never changes which ids the pools hold (as a multiset): it
only moves one id from primary (possibly after the deferred refill
shuffle) into the presented slot. -/
theorem drawIfNeeded_pools_perm (env : Env) (s : GameState)
    (hsh : ShuffleOk env) (p : RoundPools) (hp : s.pools = some p)
    (hcne : ∀ c, p.currentItemId = some c → c ≠ "")
    (q : RoundPools) (hq : (drawIfNeeded env s).pools = some q) :
    (poolList q).Perm (poolList p) := by
  cases hround : s.currentRound with
  | none =>
    rw [drawIfNeeded, hround] at hq
    rw [hp] at hq
    rw [Option.some_inj] at hq
    subst hq
    exact List.Perm.refl _
  | some r =>
    by_cases htruthy : optStrTruthy p.currentItemId = true
    · have hEq : drawIfNeeded env s = s := by
        rw [drawIfNeeded, hround, hp]
        simp [htruthy]
      rw [hEq, hp, Option.some_inj] at hq
      subst hq
      exact List.Perm.refl _
    · have hcur : p.currentItemId = none := by
        cases hc : p.currentItemId with
        | none => rfl
        | some c => exact absurd (by simp [optStrTruthy, hc, hcne c hc]) htruthy
      rw [drawIfNeeded, hround, hp] at hq
      simp only [htruthy, Bool.false_eq_true, if_false] at hq
      by_cases href : (p.primary.isEmpty && !p.deferred.isEmpty) = true
      · have hpri : p.primary = [] := by
          rcases Bool.and_eq_true _ _ |>.mp href with ⟨h1, -⟩
          simpa using h1
        rw [if_pos href] at hq
        cases hsd : env.shuffle p.deferred with
        | nil =>
          rw [hsd] at hq
          dsimp only [] at hq
          rw [hp, Option.some_inj] at hq
          subst hq
          exact List.Perm.refl _
        | cons next rest =>
          rw [hsd] at hq
          dsimp only [] at hq
          rw [Option.some_inj] at hq
          subst hq
          have h1 : poolList { primary := rest, deferred := ([] : List String), currentItemId := some next } = rest ++ [next] := by
            simp [poolList]
          have h2 : poolList p = p.deferred := by
            simp [poolList, hpri, hcur]
          rw [h1, h2]
          have h3 : (rest ++ [next]).Perm (next :: rest) :=
            List.perm_append_singleton _ _
          have h4 : (next :: rest).Perm p.deferred := by
            rw [← hsd]
            exact hsh p.deferred
          exact h3.trans h4
      · simp only [href, Bool.false_eq_true, if_false] at hq
        cases hpri : p.primary with
        | nil =>
          rw [hpri] at hq
          dsimp only [] at hq
          rw [hp, Option.some_inj] at hq
          subst hq
          exact List.Perm.refl _
        | cons next rest =>
          rw [hpri] at hq
          dsimp only [] at hq
          rw [Option.some_inj] at hq
          subst hq
          have h1 : poolList { primary := rest, deferred := p.deferred, currentItemId := some next } = rest ++ p.deferred ++ [next] := by
            simp [poolList]
          have h2 : poolList p = (next :: rest) ++ p.deferred := by
            simp [poolList, hpri, hcur]
          rw [h1, h2]
          exact List.perm_append_singleton next (rest ++ p.deferred)

theorem invG_mk (t : GameState) (g ids : List String)
    (hids : itemIds t = ids)
    (hstack : t.undoStack = [])
    (hscr : t.screen = .wordEntry ∨ t.screen = .entryHandoff → t.pools = none)
    (hlive : ∀ p, t.pools = some p → (poolList p ++ g).Perm ids) : InvG t g := by
  refine ⟨?_, ?_, fun h => ⟨hscr h, hstack⟩⟩
  · intro p hp
    rw [hids]
    exact hlive p hp
  · rw [hstack]
    exact True.intro

/-- Items, stack and screen shape of an accepted TURN_START. -/
theorem turnStart_shape (env : Env) (s : GameState) (r : RoundNumber)
    (hscr : s.screen = .turnStart) (hround : s.currentRound = some r) :
    (gameReducer env s .TURN_START).items = s.items ∧
    (gameReducer env s .TURN_START).undoStack = [] ∧
    ((gameReducer env s .TURN_START).screen = .roundComplete ∨
      (gameReducer env s .TURN_START).screen = .turnActive) := by
  simp only [gameReducer, hround]
  rw [if_neg (show ¬(s.screen ≠ Screen.turnStart) by rw [hscr]; simp)]
  split
  · refine ⟨?_, ?_, Or.inl ?_⟩
    · rw [completeRound_items, drawIfNeeded_items, ensurePoolsReady_items]
    · exact completeRound_undoStack env 4 _ r
        (by rw [drawIfNeeded_currentRound, ensurePoolsReady_currentRound]; exact hround)
    · exact completeRound_screen env 4 _ r
        (by rw [drawIfNeeded_currentRound, ensurePoolsReady_currentRound]; exact hround)
  · refine ⟨?_, rfl, Or.inr rfl⟩
    rw [addEvent_items]
    show (drawIfNeeded env (ensurePoolsReady env s)).items = s.items
    rw [drawIfNeeded_items, ensurePoolsReady_items]

/-- Items, stack and screen shape of an accepted TURN_PASSED. -/
theorem turnPassed_shape (env : Env) (s : GameState) (r : RoundNumber)
    (p : RoundPools)
    (hscr : s.screen = .turnActive) (hround : s.currentRound = some r)
    (hp : s.pools = some p) (htruthy : optStrTruthy p.currentItemId = true) :
    (gameReducer env s .TURN_PASSED).items = s.items ∧
    (gameReducer env s .TURN_PASSED).undoStack =
      sliceLastTen (s.undoStack ++ [passedEntry s r p]) ∧
    (gameReducer env s .TURN_PASSED).screen = s.screen := by
  simp only [gameReducer]
  rw [if_neg (show ¬(s.screen ≠ Screen.turnActive) by rw [hscr]; simp)]
  simp only [hround, hp]
  rw [if_neg (by simp [htruthy])]
  refine ⟨?_, ?_, ?_⟩
  · rw [addEvent_items, drawIfNeeded_items]
  · rw [addEvent_undoStack, drawIfNeeded_undoStack]
    rfl
  · rw [addEvent_screen, drawIfNeeded_screen]

/-- Items, stack and screen shape of an accepted TURN_GUESSED. -/
theorem turnGuessed_shape (env : Env) (s : GameState) (r : RoundNumber)
    (p : RoundPools)
    (hscr : s.screen = .turnActive) (hround : s.currentRound = some r)
    (hp : s.pools = some p) (htruthy : optStrTruthy p.currentItemId = true) :
    (gameReducer env s .TURN_GUESSED).items = s.items ∧
    ((gameReducer env s .TURN_GUESSED).undoStack = [] ∨
      (gameReducer env s .TURN_GUESSED).undoStack =
        sliceLastTen (s.undoStack ++ [guessedEntry s r p])) ∧
    ((gameReducer env s .TURN_GUESSED).screen = .roundComplete ∨
      (gameReducer env s .TURN_GUESSED).screen = .turnActive) := by
  simp only [gameReducer]
  rw [if_neg (show ¬(s.screen ≠ Screen.turnActive) by rw [hscr]; simp)]
  simp only [hround, hp]
  rw [if_neg (by simp [htruthy])]
  split
  · refine ⟨?_, Or.inl ?_, Or.inl ?_⟩
    · rw [completeRound_items, addEvent_items, drawIfNeeded_items]
    · exact completeRound_undoStack env 5 _ r
        (by rw [addEvent_currentRound, drawIfNeeded_currentRound])
    · exact completeRound_screen env 5 _ r
        (by rw [addEvent_currentRound, drawIfNeeded_currentRound])
  · refine ⟨?_, Or.inr ?_, Or.inr ?_⟩
    · rw [addEvent_items, drawIfNeeded_items]
    · rw [addEvent_undoStack, drawIfNeeded_undoStack]
      rfl
    · rw [addEvent_screen, drawIfNeeded_screen]
      exact hscr

/-- One reducer step preserves the ghost invariant, the guessed list
evolving by `ghostStep`. -/
theorem invG_step (env : Env) (s : GameState) (a : Action) (g : List String)
    (henv : GoodEnv env s) (hInv : Inv s) (hG : InvG s g) :
    InvG (gameReducer env s a) (ghostStep s a g) := by
  obtain ⟨hsh, -, -, -⟩ := henv
  cases a
  case HOST_SET_TEAM_NAME tid nm =>
    simp only [gameReducer]
    split
    · exact hG
    · exact hG
  case HOST_SET_PLAYER_COUNT n =>
    simp only [gameReducer]
    split
    · exact hG
    · exact hG
  case HOST_SET_TIMER rd secs =>
    simp only [gameReducer]
    split
    · exact hG
    · split <;> exact hG
  case HOST_START_WORD_ENTRY =>
    by_cases h : canEditSetup s = false
    · rw [show ghostStep s .HOST_START_WORD_ENTRY g = g by
        simp only [ghostStep]; rw [if_pos h]]
      rw [show gameReducer env s .HOST_START_WORD_ENTRY = s by
        simp only [gameReducer]; rw [if_pos h]]
      exact hG
    · rw [show ghostStep s .HOST_START_WORD_ENTRY g = [] by
        simp only [ghostStep]; rw [if_neg h]]
      simp only [gameReducer]
      rw [if_neg h]
      refine invG_mk _ [] _ rfl rfl (fun _ => rfl) ?_
      intro p hp
      exact Option.noConfusion (show (none : Option RoundPools) = some p from hp)
  case ENTRY_SUBMIT_PLAYER pn tid i1 i2 i3 =>
    by_cases hscr : s.screen = Screen.wordEntry
    · obtain ⟨hpn, hsn⟩ := hG.2.2 (Or.inl hscr)
      simp only [gameReducer]
      rw [if_neg (show ¬(s.screen ≠ Screen.wordEntry) by rw [hscr]; simp)]
      split
      · exact hG
      · split
        · exact hG
        · cases hok : validateEntryItems s.items [] 0 [i1, i2, i3] with
          | error e => exact hG
          | ok out =>
            refine invG_mk _ g _ rfl hsn (fun _ => hpn) ?_
            intro p hp
            have hp2 : s.pools = some p := hp
            rw [hpn] at hp2
            exact Option.noConfusion hp2
    · rw [show gameReducer env s (.ENTRY_SUBMIT_PLAYER pn tid i1 i2 i3) = s by
        simp [gameReducer, hscr]]
      exact hG
  case ENTRY_ACK_HANDOFF =>
    by_cases hscr : s.screen = Screen.entryHandoff
    · obtain ⟨hpn, hsn⟩ := hG.2.2 (Or.inr hscr)
      rw [show gameReducer env s .ENTRY_ACK_HANDOFF =
          { s with screen := Screen.wordEntry, lastError := none } by
        simp [gameReducer, hscr]]
      exact ⟨hG.1, hG.2.1, fun _ => ⟨hpn, hsn⟩⟩
    · rw [show gameReducer env s .ENTRY_ACK_HANDOFF = s by simp [gameReducer, hscr]]
      exact hG
  case READY_START_ROUND1 =>
    by_cases hscr : s.screen = Screen.ready
    · by_cases hcnt : (s.items.length : Int) = s.playerCount * 3
      · rw [show ghostStep s .READY_START_ROUND1 g = [] by
          simp [ghostStep, hscr, hcnt]]
        simp only [gameReducer]
        rw [if_neg (show ¬(s.screen ≠ Screen.ready) by rw [hscr]; simp)]
        rw [if_neg (show ¬((s.items.length : Int) ≠ s.playerCount * 3) by simp [hcnt])]
        refine invG_mk _ [] (itemIds s) ?_ ?_ ?_ ?_
        · unfold itemIds
          rw [addEvent_items, ensurePoolsReady_items]
        · rw [addEvent_undoStack, ensurePoolsReady_undoStack]
        · intro h
          rw [addEvent_screen, ensurePoolsReady_screen] at h
          rcases h with h | h <;> cases h
        · intro p hp
          rw [addEvent_pools] at hp
          simp only [ensurePoolsReady] at hp
          rw [Option.some_inj] at hp
          subst hp
          simp only [poolList, Option.toList_none, List.append_nil]
          exact hsh _
      · rw [show ghostStep s .READY_START_ROUND1 g = g by simp [ghostStep, hscr, hcnt]]
        rw [show gameReducer env s .READY_START_ROUND1 =
            { s with lastError := some "Incorrect number of items in fishbowl." } by
          simp [gameReducer, hscr, hcnt]]
        exact hG
    · rw [show ghostStep s .READY_START_ROUND1 g = g by simp [ghostStep, hscr]]
      rw [show gameReducer env s .READY_START_ROUND1 = s by simp [gameReducer, hscr]]
      exact hG
  case HANDOFF_ACK =>
    simp only [gameReducer]
    split
    · exact hG
    · exact ⟨hG.1, hG.2.1, fun h => by rcases h with h | h <;> cases h⟩
  case TIME_UP_ACK =>
    simp only [gameReducer]
    split
    · exact hG
    · exact ⟨hG.1, hG.2.1, fun h => by rcases h with h | h <;> cases h⟩
  case HOST_RESTART_GAME =>
    refine invG_mk _ [] _ rfl rfl (fun _ => rfl) ?_
    intro p hp
    exact Option.noConfusion (show (none : Option RoundPools) = some p from hp)
  case TURN_START =>
    by_cases hscr : s.screen = Screen.turnStart
    · cases hround : s.currentRound with
      | none =>
        rw [show ghostStep s .TURN_START g = g by simp [ghostStep, hscr, hround]]
        rw [show gameReducer env s .TURN_START = s by simp [gameReducer, hscr, hround]]
        exact hG
      | some round =>
        obtain ⟨hsi, hsu, hss⟩ := turnStart_shape env s round hscr hround
        have hit : itemIds (gameReducer env s .TURN_START) = itemIds s := by
          unfold itemIds
          rw [hsi]
        cases hpools : s.pools with
        | none =>
          rw [show ghostStep s .TURN_START g = [] by simp [ghostStep, hscr, hround, hpools]]
          refine invG_mk _ [] (itemIds s) hit hsu ?_ ?_
          · intro h
            rcases hss with hss | hss <;> (rw [hss] at h; rcases h with h | h <;> cases h)
          · intro q hq
            rw [turnStart_pools env s round hscr hround] at hq
            have hF : (ensurePoolsReady env s).pools =
                some { primary := env.shuffle (itemIds s), deferred := [], currentItemId := none } :=
              ensurePoolsReady_of_none env s round hround hpools
            have hperm := drawIfNeeded_pools_perm env (ensurePoolsReady env s) hsh _ hF
              (by intro c' hc'; cases hc') q hq
            have hFp : (poolList { primary := env.shuffle (itemIds s), deferred := ([] : List String), currentItemId := (none : Option String) }).Perm (itemIds s) := by
              simp only [poolList, Option.toList_none, List.append_nil]
              exact hsh _
            rw [List.append_nil]
            exact hperm.trans hFp
        | some p0 =>
          rw [show ghostStep s .TURN_START g = g by simp [ghostStep, hscr, hround, hpools]]
          refine invG_mk _ g (itemIds s) hit hsu ?_ ?_
          · intro h
            rcases hss with hss | hss <;> (rw [hss] at h; rcases h with h | h <;> cases h)
          · intro q hq
            rw [turnStart_pools env s round hscr hround,
              ensurePoolsReady_of_some env s p0 hpools] at hq
            have hperm := drawIfNeeded_pools_perm env s hsh p0 hpools
              (fun c' hc' => inv_cur_ne_empty hInv hpools hc') q hq
            exact (hperm.append_right g).trans (hG.1 p0 hpools)
    · rw [show ghostStep s .TURN_START g = g by simp [ghostStep, hscr]]
      rw [show gameReducer env s .TURN_START = s by simp [gameReducer, hscr]]
      exact hG
  case TURN_SYNC_TIMER nowMs =>
    rw [show ghostStep s (.TURN_SYNC_TIMER nowMs) g = g from rfl]
    simp only [gameReducer]
    split
    · exact hG
    · split
      · exact hG
      · split
        · exact hG
        · split
          · exact hG
          · cases hpools : s.pools with
            | none =>
              refine invG_mk _ g _ rfl rfl ?_ ?_
              · intro h
                rcases h with h | h <;> cases h
              · intro q hq
                exact Option.noConfusion (show (none : Option RoundPools) = some q from hq)
            | some p =>
              refine invG_mk _ g (itemIds s) rfl rfl ?_ ?_
              · intro h
                rcases h with h | h <;> cases h
              · intro q hq
                by_cases htruthy : optStrTruthy p.currentItemId = true
                · cases hcur : p.currentItemId with
                  | none => exact absurd htruthy (by simp [optStrTruthy, hcur])
                  | some c =>
                    have hq2 : (if optStrTruthy p.currentItemId = true then some { primary := env.shuffle (p.primary ++ [p.currentItemId.getD ""]), deferred := p.deferred, currentItemId := (none : Option String) } else some p) = some q := hq
                    rw [if_pos htruthy, Option.some_inj] at hq2
                    subst hq2
                    have hpp : (poolList { primary := env.shuffle (p.primary ++ [p.currentItemId.getD ""]), deferred := p.deferred, currentItemId := (none : Option String) }).Perm (poolList p) := by
                      have h1 : poolList { primary := env.shuffle (p.primary ++ [p.currentItemId.getD ""]), deferred := p.deferred, currentItemId := (none : Option String) } = env.shuffle (p.primary ++ [c]) ++ p.deferred := by
                        simp [poolList, hcur]
                      have h2 : poolList p = p.primary ++ p.deferred ++ [c] := by
                        simp [poolList, hcur]
                      rw [h1, h2]
                      have h3 : (env.shuffle (p.primary ++ [c])).Perm (p.primary ++ [c]) :=
                        hsh _
                      have h4 : (env.shuffle (p.primary ++ [c]) ++ p.deferred).Perm
                          ((p.primary ++ [c]) ++ p.deferred) := h3.append_right _
                      refine h4.trans ?_
                      have h5 : ((p.primary ++ [c]) ++ p.deferred).Perm
                          (p.primary ++ ([c] ++ p.deferred)) :=
                        List.Perm.of_eq (List.append_assoc _ _ _)
                      refine h5.trans ?_
                      rw [List.append_assoc]
                      exact (List.perm_append_comm.append_left p.primary)
                    exact (hpp.append_right g).trans (hG.1 p hpools)
                · have hq2 : (if optStrTruthy p.currentItemId = true then some { primary := env.shuffle (p.primary ++ [p.currentItemId.getD ""]), deferred := p.deferred, currentItemId := (none : Option String) } else some p) = some q := hq
                  rw [if_neg htruthy, Option.some_inj] at hq2
                  subst hq2
                  exact hG.1 p hpools
  case TURN_PASSED =>
    rw [show ghostStep s .TURN_PASSED g = g from rfl]
    by_cases hscr : s.screen = Screen.turnActive
    · cases hround : s.currentRound with
      | none =>
        rw [show gameReducer env s .TURN_PASSED = s by simp [gameReducer, hscr, hround]]
        exact hG
      | some r =>
        cases hpools : s.pools with
        | none =>
          rw [show gameReducer env s .TURN_PASSED = s by
            simp [gameReducer, hscr, hround, hpools]]
          exact hG
        | some p =>
          by_cases htruthy : optStrTruthy p.currentItemId = true
          · obtain ⟨hsi, hsu, hss⟩ := turnPassed_shape env s r p hscr hround hpools htruthy
            have hit : itemIds (gameReducer env s .TURN_PASSED) = itemIds s := by
              unfold itemIds
              rw [hsi]
            refine ⟨?_, ?_, ?_⟩
            · intro q hq
              rw [turnPassed_pools env s r p hscr hround hpools htruthy] at hq
              have hperm := drawIfNeeded_pools_perm env _ hsh _ rfl
                (by intro c' hc'; cases hc') q hq
              cases hcur : p.currentItemId with
              | none => exact absurd htruthy (by simp [optStrTruthy, hcur])
              | some c =>
                have hq0 : (poolList { primary := p.primary, deferred := p.deferred ++ [p.currentItemId.getD ""], currentItemId := (none : Option String) }).Perm (poolList p) :=
                  List.Perm.of_eq (by simp [poolList, hcur, List.append_assoc])
                rw [hit]
                exact ((hperm.trans hq0).append_right g).trans (hG.1 p hpools)
            · rw [hit, hsu]
              exact stackOk_push (itemIds s) s.undoStack g g (passedEntry s r p)
                hG.2.1 rfl (hG.1 p hpools)
            · intro h
              rw [hss, hscr] at h
              rcases h with h | h <;> cases h
          · rw [show gameReducer env s .TURN_PASSED = s by
              simp [gameReducer, hscr, hround, hpools, htruthy]]
            exact hG
    · rw [show gameReducer env s .TURN_PASSED = s by simp [gameReducer, hscr]]
      exact hG
  case TURN_GUESSED =>
    by_cases hscr : s.screen = Screen.turnActive
    · cases hround : s.currentRound with
      | none =>
        rw [show ghostStep s .TURN_GUESSED g = g by simp [ghostStep, hscr, hround]]
        rw [show gameReducer env s .TURN_GUESSED = s by simp [gameReducer, hscr, hround]]
        exact hG
      | some r =>
        cases hpools : s.pools with
        | none =>
          rw [show ghostStep s .TURN_GUESSED g = g by simp [ghostStep, hscr, hround, hpools]]
          rw [show gameReducer env s .TURN_GUESSED = s by
            simp [gameReducer, hscr, hround, hpools]]
          exact hG
        | some p =>
          by_cases htruthy : optStrTruthy p.currentItemId = true
          · cases hcur : p.currentItemId with
            | none => exact absurd htruthy (by simp [optStrTruthy, hcur])
            | some c =>
              have hcin : c ∈ poolList p := by simp [poolList, hcur]
              have hndpg : (poolList p ++ g).Nodup :=
                ((hG.1 p hpools).symm).nodup hInv.1
              have hcg : ¬c ∈ g := fun hcg =>
                (List.disjoint_of_nodup_append hndpg) hcin hcg
              have herase : (g ++ [c]).erase c = g := by
                rw [List.erase_append_right _ hcg]
                simp
              rw [show ghostStep s .TURN_GUESSED g = g ++ [p.currentItemId.getD ""] by
                simp [ghostStep, hscr, hround, hpools, htruthy]]
              obtain ⟨hsi, hsu, hss⟩ := turnGuessed_shape env s r p hscr hround hpools htruthy
              have hit : itemIds (gameReducer env s .TURN_GUESSED) = itemIds s := by
                unfold itemIds
                rw [hsi]
              have hmid : (poolList { primary := p.primary, deferred := p.deferred, currentItemId := (none : Option String) } ++ (g ++ [p.currentItemId.getD ""])).Perm (poolList p ++ g) := by
                simp only [poolList, hcur, Option.getD_some, Option.toList_some,
                  Option.toList_none, List.append_nil]
                exact (List.perm_append_comm.append_left _).trans
                  (List.Perm.of_eq (List.append_assoc _ _ _).symm)
              refine ⟨?_, ?_, ?_⟩
              · intro q hq
                rw [turnGuessed_pools env s r p hscr hround hpools htruthy] at hq
                have hperm := drawIfNeeded_pools_perm env _ hsh _ rfl
                  (by intro c' hc'; cases hc') q hq
                rw [hit]
                exact ((hperm.append_right _).trans hmid).trans (hG.1 p hpools)
              · rw [hit]
                rcases hsu with hsu | hsu
                · rw [hsu]
                  exact True.intro
                · rw [hsu]
                  refine stackOk_push (itemIds s) s.undoStack g _ (guessedEntry s r p)
                    hG.2.1 ?_ (hG.1 p hpools)
                  show (g ++ [p.currentItemId.getD ""]).erase (p.currentItemId.getD "") = g
                  rw [hcur]
                  simp only [Option.getD_some]
                  exact herase
              · intro h
                rcases hss with hss | hss <;> (rw [hss] at h; rcases h with h | h <;> cases h)
          · rw [show ghostStep s .TURN_GUESSED g = g by
              simp [ghostStep, hscr, hround, hpools, htruthy]]
            rw [show gameReducer env s .TURN_GUESSED = s by
              simp [gameReducer, hscr, hround, hpools, htruthy]]
            exact hG
    · rw [show ghostStep s .TURN_GUESSED g = g by simp [ghostStep, hscr]]
      rw [show gameReducer env s .TURN_GUESSED = s by simp [gameReducer, hscr]]
      exact hG
  case TURN_UNDO =>
    by_cases hscr : s.screen = Screen.turnActive
    · rw [show gameReducer env s .TURN_UNDO = applyUndo env s by simp [gameReducer, hscr]]
      unfold applyUndo
      cases hlast : s.undoStack.getLast? with
      | none =>
        rw [show ghostStep s .TURN_UNDO g = g by simp [ghostStep, hscr, hlast]]
        exact hG
      | some top =>
        cases hround : s.currentRound with
        | none =>
          rw [show ghostStep s .TURN_UNDO g = g by simp [ghostStep, hscr, hlast, hround]]
          exact hG
        | some r =>
          dsimp only []
          by_cases hne2 : top.round ≠ r
          · rw [if_pos hne2]
            rw [show ghostStep s .TURN_UNDO g = g by
              simp [ghostStep, hscr, hlast, hround, hne2]]
            exact hG
          · rw [if_neg hne2]
            rw [show ghostStep s .TURN_UNDO g = undoGhost g top by
              simp [ghostStep, hscr, hlast, hround, hne2]]
            obtain ⟨hperm, htail⟩ := stackOk_pop (itemIds s) s.undoStack g top hlast hG.2.1
            refine ⟨?_, ?_, ?_⟩
            · intro q hq
              have hq2 : some (clonePools top.pools) = some q := hq
              rw [Option.some_inj] at hq2
              subst hq2
              exact hperm
            · exact htail
            · intro h
              rcases h with h | h <;> exact Screen.noConfusion (hscr.symm.trans h)
    · rw [show ghostStep s .TURN_UNDO g = g by simp [ghostStep, hscr]]
      rw [show gameReducer env s .TURN_UNDO = s by simp [gameReducer, hscr]]
      exact hG
  case ROUND_PROCEED =>
    by_cases hscr : s.screen = Screen.roundComplete
    · cases hround : s.currentRound with
      | none =>
        rw [show ghostStep s .ROUND_PROCEED g = g by simp [ghostStep, hscr, hround]]
        rw [show gameReducer env s .ROUND_PROCEED = s by simp [gameReducer, hscr, hround]]
        exact hG
      | some round =>
        by_cases h3 : round = RoundNumber.three
        · subst h3
          rw [show ghostStep s .ROUND_PROCEED g = g by simp [ghostStep, hscr, hround]]
          rw [show gameReducer env s .ROUND_PROCEED =
              { s with screen := Screen.final, lastError := none } by
            simp [gameReducer, hscr, hround]]
          exact ⟨hG.1, hG.2.1, fun h => by rcases h with h | h <;> cases h⟩
        · rw [show ghostStep s .ROUND_PROCEED g = [] by
            simp [ghostStep, hscr, hround, h3]]
          simp only [gameReducer]
          rw [if_neg (show ¬(s.screen ≠ Screen.roundComplete) by rw [hscr]; simp), hround]
          dsimp only []
          rw [if_neg h3]
          refine invG_mk _ [] (itemIds s) ?_ ?_ ?_ ?_
          · unfold itemIds
            rw [addEvent_items, ensurePoolsReady_items]
          · rw [addEvent_undoStack, ensurePoolsReady_undoStack]
          · intro h
            rw [addEvent_screen, ensurePoolsReady_screen] at h
            rcases h with h | h <;> cases h
          · intro p hp
            rw [addEvent_pools] at hp
            simp only [ensurePoolsReady] at hp
            rw [Option.some_inj] at hp
            subst hp
            simp only [poolList, Option.toList_none, List.append_nil]
            exact hsh _
    · rw [show ghostStep s .ROUND_PROCEED g = g by simp [ghostStep, hscr]]
      rw [show gameReducer env s .ROUND_PROCEED = s by simp [gameReducer, hscr]]
      exact hG
  case HOST_RESTART_ROUND =>
    by_cases hscr : s.screen = Screen.turnActive
    · rw [show ghostStep s .HOST_RESTART_ROUND g = g by simp [ghostStep, hscr]]
      rw [show gameReducer env s .HOST_RESTART_ROUND = s by simp [gameReducer, hscr]]
      exact hG
    · cases hround : s.currentRound with
      | none =>
        rw [show ghostStep s .HOST_RESTART_ROUND g = g by simp [ghostStep, hscr, hround]]
        rw [show gameReducer env s .HOST_RESTART_ROUND = s by
          simp [gameReducer, hscr, hround]]
        exact hG
      | some round =>
        rw [show ghostStep s .HOST_RESTART_ROUND g = [] by simp [ghostStep, hscr, hround]]
        simp only [gameReducer]
        rw [if_neg hscr, hround]
        dsimp only []
        refine invG_mk _ [] (itemIds s) ?_ ?_ ?_ ?_
        · unfold itemIds
          rw [ensurePoolsReady_items]
        · rw [ensurePoolsReady_undoStack]
        · intro h
          rw [ensurePoolsReady_screen] at h
          rcases h with h | h <;> cases h
        · intro p hp
          simp only [ensurePoolsReady] at hp
          rw [Option.some_inj] at hp
          subst hp
          simp only [poolList, Option.toList_none, List.append_nil]
          exact hsh _

theorem invG_init : InvG createNewGameState [] := by
  refine ⟨?_, ?_, ?_⟩
  · intro p hp
    exact Option.noConfusion (show (none : Option RoundPools) = some p from hp)
  · exact True.intro
  · intro h
    rcases h with h | h <;> cases h

/-- Every instrumented reachable state satisfies the ghost invariant. -/
theorem reachableG_invG (s : GameState) (g : List String)
    (h : ReachableG s g) : InvG s g := by
  induction h with
  | init => exact invG_init
  | step env a hs henv ih =>
    exact invG_step env _ a _ henv (reachable_inv _ (reachableG_reachable hs)) ih

/-- C1: for every sequence of actions from a fresh game (with its
guessed-ids list `g` maintained by the instrumented semantics
`ReachableG`/`ghostStep`: an id enters `g` exactly when an accepted
TURN_GUESSED scores it, leaves when a successful TURN_UNDO un-scores it,
and `g` resets when the pools are rebuilt from the full item set), in
every reached state with an active round and pools present: primary,
deferred, the presented item and the already-guessed ids are each
duplicate-free, pairwise disjoint, and their union is a permutation of
the full list of stored item ids. -/
theorem pool_conservation (s : GameState) (g : List String)
    (hs : ReachableG s g) (r : RoundNumber) (hr : s.currentRound = some r)
    (p : RoundPools) (hp : s.pools = some p) :
    p.primary.Nodup ∧ p.deferred.Nodup ∧ g.Nodup ∧
    List.Disjoint p.primary p.deferred ∧
    (∀ x ∈ p.primary, p.currentItemId ≠ some x) ∧
    (∀ x ∈ p.deferred, p.currentItemId ≠ some x) ∧
    (∀ x ∈ poolList p, ¬x ∈ g) ∧
    (poolList p ++ g).Perm (itemIds s) := by
  have hInv := reachable_inv s (reachableG_reachable hs)
  have hperm : (poolList p ++ g).Perm (itemIds s) := (reachableG_invG s g hs).1 p hp
  have hndall : (poolList p ++ g).Nodup := (hperm.symm).nodup hInv.1
  have hnd1 := List.nodup_append.mp hndall
  have hndp : (p.primary ++ (p.deferred ++ p.currentItemId.toList)).Nodup := by
    have h0 := hnd1.1
    unfold poolList at h0
    rwa [List.append_assoc] at h0
  have h1 := List.nodup_append.mp hndp
  have h2 := List.nodup_append.mp h1.2.1
  refine ⟨h1.1, h2.1, hnd1.2.1, ?_, ?_, ?_, ?_, hperm⟩
  · intro x hx1 hx2
    exact h1.2.2 hx1 (List.mem_append_left _ hx2)
  · intro x hx hcx
    exact h1.2.2 hx (List.mem_append_right _ (by simp [hcx]))
  · intro x hx hcx
    exact h2.2.2 hx (by simp [hcx])
  · intro x hx hxg
    exact hnd1.2.2 hx hxg

/-- The concrete trace, instrumented: after the pass of "w1" and the four
guesses, the maintained guessed list is exactly w2..w5. -/
theorem traceTurnState_reachableG :
    ReachableG traceTurnState ["w2", "w3", "w4", "w5"] := by
  have h0 : ReachableG createNewGameState [] := .init
  have h1 := ReachableG.step traceEnvZ (.HOST_SET_PLAYER_COUNT 2) h0
    ⟨fun l => List.Perm.refl l, by decide, by decide, by decide⟩
  have h2 := ReachableG.step traceEnvZ .HOST_START_WORD_ENTRY h1
    ⟨fun l => List.Perm.refl l, by decide, by decide, by decide⟩
  have h3 := ReachableG.step traceEnvP (.ENTRY_SUBMIT_PLAYER "P" .A "aa" "bb" "cc") h2
    ⟨fun l => List.Perm.refl l, by decide, by decide, by decide⟩
  have h4 := ReachableG.step traceEnvZ .ENTRY_ACK_HANDOFF h3
    ⟨fun l => List.Perm.refl l, by decide, by decide, by decide⟩
  have h5 := ReachableG.step traceEnvQ (.ENTRY_SUBMIT_PLAYER "Q" .B "dd" "ee" "ff") h4
    ⟨fun l => List.Perm.refl l, by decide, by decide, by decide⟩
  have h6 := ReachableG.step traceEnvZ .READY_START_ROUND1 h5
    ⟨fun l => List.Perm.refl l, by decide, by decide, by decide⟩
  have h7 := ReachableG.step traceEnvZ .HANDOFF_ACK h6
    ⟨fun l => List.Perm.refl l, by decide, by decide, by decide⟩
  have h8 := ReachableG.step traceEnvZ .TURN_START h7
    ⟨fun l => List.Perm.refl l, by decide, by decide, by decide⟩
  have h9 := ReachableG.step traceEnvZ .TURN_PASSED h8
    ⟨fun l => List.Perm.refl l, by decide, by decide, by decide⟩
  have h10 := ReachableG.step traceEnvZ .TURN_GUESSED h9
    ⟨fun l => List.Perm.refl l, by decide, by decide, by decide⟩
  have h11 := ReachableG.step traceEnvZ .TURN_GUESSED h10
    ⟨fun l => List.Perm.refl l, by decide, by decide, by decide⟩
  have h12 := ReachableG.step traceEnvZ .TURN_GUESSED h11
    ⟨fun l => List.Perm.refl l, by decide, by decide, by decide⟩
  have h13 := ReachableG.step traceEnvZ .TURN_GUESSED h12
    ⟨fun l => List.Perm.refl l, by decide, by decide, by decide⟩
  exact h13

/-- Witness for C1 at the mid-round trace state: the pools hold "w1"
(deferred) and "w6" (presented), the guessed list is w2..w5, the two are
disjoint and together permute the six stored item ids. -/
theorem pool_conservation_witness :
    traceTurnState.currentRound = some .one ∧
    traceTurnState.pools =
      some { primary := [], deferred := ["w1"], currentItemId := some "w6" } ∧
    (∀ x ∈ poolList { primary := [], deferred := ["w1"], currentItemId := some "w6" },
      ¬x ∈ ["w2", "w3", "w4", "w5"]) ∧
    (poolList { primary := [], deferred := ["w1"], currentItemId := some "w6" } ++
      ["w2", "w3", "w4", "w5"]).Perm (itemIds traceTurnState) :=
  ⟨rfl, rfl,
   (pool_conservation traceTurnState ["w2", "w3", "w4", "w5"]
     traceTurnState_reachableG .one rfl
     { primary := [], deferred := ["w1"], currentItemId := some "w6" }
     rfl).2.2.2.2.2.2.1,
   (pool_conservation traceTurnState ["w2", "w3", "w4", "w5"]
     traceTurnState_reachableG .one rfl
     { primary := [], deferred := ["w1"], currentItemId := some "w6" }
     rfl).2.2.2.2.2.2.2⟩

end Fishbowl